import Mathlib

/-!
# Stack sidebar (`src/lib/gui/gm-sidebar.c`)

A shallow embedding of the sidebar widget that mirrors the children of a
`GtkStack` as rows of a `GtkListBox`.

* Widgets are identified by a natural number (their address).
* The attached container is held by value in the sidebar state, together
  with the signal connections made on it and on its pages.
* Functions of `gm-sidebar.c` keep their names.  Primitives of the widget
  toolkit (list box, stack, hash table, signals) are modelled next to them and
  say so in their doc comment.
* Handlers that the toolkit invokes synchronously from inside a toolkit call
  (`row-selected`, `notify::visible-child`) form a call cycle; it is tied with
  an explicit call depth in `exec`, and `exec_total` shows the depth `7` is
  never exhausted.
-/

namespace GmSidebar

/-! ## Data model -/

/-- Signals on which `gm-sidebar.c` connects handlers. -/
inductive Signal where
  | add
  | remove
  | notify_visible_child
  | destroy
  | child_notify_title
  | child_notify_needs_attention
  | notify_visible
  | child_notify_position
  deriving DecidableEq, Repr

/-- Callbacks of `gm-sidebar.c` that are connected to signals. -/
inductive Callback where
  | on_stack_child_added
  | on_stack_child_removed
  | on_child_changed
  | disconnect_stack_signals
  | on_child_updated
  | on_position_updated
  deriving DecidableEq, Repr

/-- One signal connection made by `g_signal_connect` with the sidebar as user data. -/
structure Connection where
  signal : Signal
  callback : Callback
  deriving DecidableEq, Repr

/-- A page: a child widget of the stack with the child properties the sidebar reads. -/
structure Page where
  widget : Nat
  title : Option String
  needs_attention : Bool
  visible : Bool
  position : Int
  handlers : List Connection
  deriving DecidableEq, Repr

/-- The source container (`GtkStack`). -/
structure GtkStack where
  id : Nat
  children : List Page
  visible_child : Option Nat
  handlers : List Connection
  deriving DecidableEq, Repr

/-- A `GtkListBoxRow` together with the `GtkLabel` it contains.
`stack_child` is the object data "stack-child" of the label,
`needs_attention` the style class `GTK_STYLE_CLASS_NEEDS_ATTENTION`,
`item_class` the style class "stack_sidebar-item", `header` whether the row
carries a separator as header. -/
structure Row where
  id : Nat
  stack_child : Option Nat
  label : String
  visible : Bool
  needs_attention : Bool
  item_class : Bool
  header : Bool
  deriving DecidableEq, Repr

/-- The `GtkListBox` of the sidebar: its rows in display order and the selected row. -/
structure GtkListBox where
  rows : List Row
  selected_row : Option Nat
  deriving DecidableEq, Repr

/-- Instance data `struct _GtkStackSidebarPrivate`.  `rows` is the hash table
from page widget to row.  `next_row` (the address of the next row to be
allocated) and `set_visible_child_calls` (the number of calls of
`gtk_stack_set_visible_child` made by the sidebar) are bookkeeping of the model. -/
structure GtkStackSidebarPrivate where
  list : GtkListBox
  stack : Option GtkStack
  rows : List (Nat × Nat)
  in_child_changed : Bool
  next_row : Nat
  set_visible_child_calls : Nat
  deriving DecidableEq, Repr

/-! ## Toolkit primitives without callbacks -/

/-- Toolkit: `g_hash_table_lookup` on a table with pointer keys. -/
def g_hash_table_lookup (t : List (Nat × Nat)) (k : Nat) : Option Nat :=
  match t with
  | [] => none
  | (k1, v) :: rest => if k1 = k then some v else g_hash_table_lookup rest k

/-- Toolkit: `g_hash_table_remove`. -/
def g_hash_table_remove (t : List (Nat × Nat)) (k : Nat) : List (Nat × Nat) :=
  t.filter (fun e => decide (e.1 ≠ k))

/-- Toolkit: `g_hash_table_insert`; an existing entry for the key is replaced. -/
def g_hash_table_insert (t : List (Nat × Nat)) (k v : Nat) : List (Nat × Nat) :=
  (k, v) :: g_hash_table_remove t k

/-- Toolkit: the child of `stack` that is the widget `widget`, as
`gtk_container_child_get` finds it; `none` when there is no stack, no
widget, or the widget is not a child of the stack (the toolkit then warns and
writes nothing). -/
def gtk_container_child_get (stack : Option GtkStack) (widget : Option Nat) : Option Page :=
  match stack, widget with
  | some st, some w => st.children.find? (fun p => decide (p.widget = w))
  | _, _ => none

/-- Toolkit: `gtk_stack_get_visible_child`. -/
def gtk_stack_get_visible_child (stack : Option GtkStack) : Option Nat :=
  match stack with
  | some st => st.visible_child
  | none => none

/-- Toolkit: `gtk_list_box_row_new` followed by adding an empty label; the
new widget is not visible, has no style class and no header. -/
def gtk_list_box_row_new (id : Nat) : Row :=
  { id := id, stack_child := none, label := "", visible := false,
    needs_attention := false, item_class := false, header := false }

/-! ## Functions of `gm-sidebar.c` without callbacks -/

/-- Source `update_header` (lines 99-111): a separator is created when the row has
a predecessor and no header yet; nothing is done otherwise. -/
def update_header (row : Row) (before : Option Row) : Row :=
  if before.isSome && !row.header then { row with header := true } else row

/-- Source `sort_list` (lines 113-150): `left` and `right` start at `0` and are
overwritten by the position of the page of a present row. -/
def sort_list (priv : GtkStackSidebarPrivate) (row1 row2 : Option Row) : Int :=
  let left : Int :=
    match row1 with
    | some r =>
      match gtk_container_child_get priv.stack r.stack_child with
      | some p => p.position
      | none => 0
    | none => 0
  let right : Int :=
    match row2 with
    | some r =>
      match gtk_container_child_get priv.stack r.stack_child with
      | some p => p.position
      | none => 0
    | none => 0
  if left < right then -1
  else if left = right then 0
  else 1

/-- Source `update_row` (lines 208-236): the label text is the title (the
empty text for an absent title), the row is visible when the page is visible and
the title pointer is not `NULL`, the needs-attention class follows the page.
When the widget is not a child of the attached stack the read of the
child properties fails and the row is left as it is. -/
def update_row (priv : GtkStackSidebarPrivate) (widget : Nat) (row : Row) : Row :=
  match gtk_container_child_get priv.stack (some widget) with
  | none => row
  | some p =>
    let row := { row with label := p.title.getD "" }
    let row := { row with visible := p.visible && p.title.isSome }
    if p.needs_attention then { row with needs_attention := true }
    else { row with needs_attention := false }

/-! ## The selection cycle

`gtk_stack_sidebar_row_selected` calls `gtk_stack_set_visible_child`, which
emits `notify::visible-child`, whose handler `on_child_changed` calls
`gtk_list_box_select_row`, which emits `row-selected`.  Each function takes the
continuation `call` through which it reaches the next one. -/

/-- A call that takes part in the selection cycle. -/
inductive Call where
  | row_selected (row : Option Row)
  | set_visible_child (widget : Option Nat)
  | notify_visible_child
  | on_child_changed
  | select_row (row : Option Nat)
  deriving DecidableEq, Repr

/-- Source `gtk_stack_sidebar_row_selected` (lines 152-171), the handler of
`row-selected` of the list. -/
def gtk_stack_sidebar_row_selected
    (call : Call → GtkStackSidebarPrivate → Option GtkStackSidebarPrivate)
    (priv : GtkStackSidebarPrivate) (row : Option Row) : Option GtkStackSidebarPrivate :=
  if priv.in_child_changed then some priv
  else
    match row with
    | none => some priv
    | some r => call (Call.set_visible_child r.stack_child) priv

/-- Toolkit: `gtk_stack_set_visible_child (priv->stack, widget)` as called by the
sidebar.  The call is counted.  A widget that is a child of the stack and is
visible (`gtk_widget_get_visible`) becomes its active page;
`notify::visible-child` is emitted when the active page changed.  For a hidden
child the stack does nothing.  Without a stack, without a widget, or for a
widget that is not a child the toolkit warns and does nothing. -/
def gtk_stack_set_visible_child
    (call : Call → GtkStackSidebarPrivate → Option GtkStackSidebarPrivate)
    (priv : GtkStackSidebarPrivate) (widget : Option Nat) : Option GtkStackSidebarPrivate :=
  let priv := { priv with set_visible_child_calls := priv.set_visible_child_calls + 1 }
  match priv.stack, widget with
  | some st, some w =>
    match st.children.find? (fun p => decide (p.widget = w)) with
    | none => some priv
    | some p =>
      if p.visible then
        if st.visible_child = some w then some priv
        else call Call.notify_visible_child
          { priv with stack := some { st with visible_child := some w } }
      else some priv
  | _, _ => some priv

/-- Toolkit: emission of `notify::visible-child` on the attached stack; every
connection of `on_child_changed` on that signal is run, in order. -/
def notify_visible_child
    (call : Call → GtkStackSidebarPrivate → Option GtkStackSidebarPrivate)
    (priv : GtkStackSidebarPrivate) : Option GtkStackSidebarPrivate :=
  match priv.stack with
  | none => some priv
  | some st =>
    (st.handlers.filter (fun c => decide (c = ⟨Signal.notify_visible_child, Callback.on_child_changed⟩))).foldlM
      (fun s _ => call Call.on_child_changed s) priv

/-- Source `on_child_changed` (lines 344-361), the handler of
`notify::visible-child`; its widget argument is the attached stack. -/
def on_child_changed
    (call : Call → GtkStackSidebarPrivate → Option GtkStackSidebarPrivate)
    (priv : GtkStackSidebarPrivate) : Option GtkStackSidebarPrivate :=
  let child := gtk_stack_get_visible_child priv.stack
  let row := child.bind (g_hash_table_lookup priv.rows)
  match row with
  | some r =>
    (call (Call.select_row (some r)) { priv with in_child_changed := true }).map
      (fun s => { s with in_child_changed := false })
  | none => some priv

/-- Toolkit: `gtk_list_box_select_row`.  Selecting a row of the list that is not
yet selected makes it the selected row and emits `row-selected` with it;
selecting the selected row again emits nothing; selecting `NULL` unselects and
emits `row-selected` with `NULL` when a row was selected. -/
def gtk_list_box_select_row
    (call : Call → GtkStackSidebarPrivate → Option GtkStackSidebarPrivate)
    (priv : GtkStackSidebarPrivate) (row : Option Nat) : Option GtkStackSidebarPrivate :=
  match row with
  | some r =>
    match priv.list.rows.find? (fun x => decide (x.id = r)) with
    | none => some priv
    | some x =>
      if priv.list.selected_row = some r then some priv
      else call (Call.row_selected (some x))
        { priv with list := { priv.list with selected_row := some r } }
  | none =>
    if priv.list.selected_row.isSome then
      call (Call.row_selected none) { priv with list := { priv.list with selected_row := none } }
    else some priv

/-- The selection cycle with an explicit call depth; `none` when the depth
is exhausted. -/
def exec : Nat → Call → GtkStackSidebarPrivate → Option GtkStackSidebarPrivate
  | 0, _, _ => none
  | n + 1, Call.row_selected row, s => gtk_stack_sidebar_row_selected (exec n) s row
  | n + 1, Call.set_visible_child w, s => gtk_stack_set_visible_child (exec n) s w
  | n + 1, Call.notify_visible_child, s => notify_visible_child (exec n) s
  | n + 1, Call.on_child_changed, s => on_child_changed (exec n) s
  | n + 1, Call.select_row r, s => gtk_list_box_select_row (exec n) s r

/-- A call of the selection cycle made from outside the cycle.  Depth `7` is
enough for every call in every state (`exec_total`, `exec_stable`). -/
def dispatch (c : Call) (s : GtkStackSidebarPrivate) : GtkStackSidebarPrivate :=
  (exec 7 c s).getD s

/-! ## The list box -/

/-- Toolkit: the header pass of the list box.  The header function
`update_header` is called for every visible row with the visible row before
it; a row that is not visible carries no header.  (The list box runs the pass
for the rows whose predecessor may have changed; running it for all rows gives
the same headers, since `update_header` called again with the same predecessor
changes nothing.) -/
def gtk_list_box_update_headers (before : Option Row) : List Row → List Row
  | [] => []
  | r :: rs =>
    if r.visible then
      (update_header r before) :: gtk_list_box_update_headers (some (update_header r before)) rs
    else { r with header := false } :: gtk_list_box_update_headers before rs

/-- Toolkit: insertion of a row into a sequence kept sorted by the sort function
`cmp` (set to `sort_list` in `gtk_stack_sidebar_init`): the row goes before the
first row that compares greater than it. -/
def insert_sorted (cmp : Option Row → Option Row → Int) (row : Row) : List Row → List Row
  | [] => [row]
  | r :: rs => if 0 < cmp (some r) (some row) then row :: r :: rs else r :: insert_sorted cmp row rs

/-- Toolkit: `gtk_container_add (GTK_CONTAINER (priv->list), row)`: sorted
insertion followed by the header pass. -/
def gtk_list_box_add (priv : GtkStackSidebarPrivate) (row : Row) : GtkStackSidebarPrivate :=
  { priv with list := { priv.list with
      rows := gtk_list_box_update_headers none (insert_sorted (sort_list priv) row priv.list.rows) } }

/-- Toolkit: `gtk_list_box_invalidate_sort`: the rows are sorted again with the
sort function, then the header pass runs. -/
def gtk_list_box_invalidate_sort (priv : GtkStackSidebarPrivate) : GtkStackSidebarPrivate :=
  { priv with list := { priv.list with
      rows := gtk_list_box_update_headers none
        (priv.list.rows.foldl (fun acc r => insert_sorted (sort_list priv) r acc) []) } }

/-- Toolkit: `gtk_container_remove (GTK_CONTAINER (priv->list), row)`: the row
leaves the list; when it was the selected row the selection becomes empty and
`row-selected` is emitted with `NULL`; then the header pass runs. -/
def gtk_list_box_remove (priv : GtkStackSidebarPrivate) (row : Nat) : GtkStackSidebarPrivate :=
  let rows := gtk_list_box_update_headers none (priv.list.rows.filter (fun x => decide (x.id ≠ row)))
  if priv.list.selected_row = some row then
    dispatch (Call.row_selected none) { priv with list := { rows := rows, selected_row := none } }
  else { priv with list := { priv.list with rows := rows } }

/-! ## Signal connections -/

/-- Toolkit: `g_signal_connect (widget, ...)` on a page of the attached stack. -/
def g_signal_connect_page (priv : GtkStackSidebarPrivate) (widget : Nat) (c : Connection) :
    GtkStackSidebarPrivate :=
  match priv.stack with
  | none => priv
  | some st =>
    { priv with stack := some { st with children := st.children.map (fun p =>
        if p.widget = widget then { p with handlers := p.handlers ++ [c] } else p) } }

/-- Toolkit: `g_signal_handlers_disconnect_by_func (widget, func, stack_sidebar)` on a
page of the attached stack. -/
def g_signal_handlers_disconnect_page (priv : GtkStackSidebarPrivate) (widget : Nat)
    (func : Callback) : GtkStackSidebarPrivate :=
  match priv.stack with
  | none => priv
  | some st =>
    { priv with stack := some { st with children := st.children.map (fun p =>
        if p.widget = widget then
          { p with handlers := p.handlers.filter (fun c => decide (c.callback ≠ func)) }
        else p) } }

/-- Source `disconnect_stack_signals` (lines 379-388). -/
def disconnect_stack_signals (priv : GtkStackSidebarPrivate) : GtkStackSidebarPrivate :=
  match priv.stack with
  | none => priv
  | some st =>
    let hs := st.handlers.filter (fun c => decide (c.callback ≠ Callback.on_stack_child_added))
    let hs := hs.filter (fun c => decide (c.callback ≠ Callback.on_stack_child_removed))
    let hs := hs.filter (fun c => decide (c.callback ≠ Callback.on_child_changed))
    let hs := hs.filter (fun c => decide (c.callback ≠ Callback.disconnect_stack_signals))
    { priv with stack := some { st with handlers := hs } }

/-- Source `connect_stack_signals` (lines 390-403). -/
def connect_stack_signals (priv : GtkStackSidebarPrivate) : GtkStackSidebarPrivate :=
  match priv.stack with
  | none => priv
  | some st =>
    { priv with stack := some { st with handlers := st.handlers ++
        [⟨Signal.add, Callback.on_stack_child_added⟩,
         ⟨Signal.remove, Callback.on_stack_child_removed⟩,
         ⟨Signal.notify_visible_child, Callback.on_child_changed⟩,
         ⟨Signal.destroy, Callback.disconnect_stack_signals⟩] } }

/-! ## Rows and pages -/

/-- Source `on_position_updated` (lines 238-246). -/
def on_position_updated (priv : GtkStackSidebarPrivate) : GtkStackSidebarPrivate :=
  gtk_list_box_invalidate_sort priv

/-- Source `on_child_updated` (lines 248-258): the row of the page is looked up
and re-derived by `update_row`.  The list box reacts to the change of the
row with its header pass.  Without a row for the page every toolkit call in
`update_row` is rejected and nothing changes. -/
def on_child_updated (widget : Nat) (priv : GtkStackSidebarPrivate) : GtkStackSidebarPrivate :=
  match g_hash_table_lookup priv.rows widget with
  | none => priv
  | some r =>
    { priv with list := { priv.list with
        rows := gtk_list_box_update_headers none
          (priv.list.rows.map (fun x => if x.id = r then update_row priv widget x else x)) } }

/-- Source `add_child` (lines 260-300). -/
def add_child (widget : Nat) (priv : GtkStackSidebarPrivate) : GtkStackSidebarPrivate :=
  if (g_hash_table_lookup priv.rows widget).isSome then priv
  else
    let row := gtk_list_box_row_new priv.next_row
    let priv := { priv with next_row := priv.next_row + 1 }
    let row := update_row priv widget row
    let row := { row with item_class := true }
    let priv := g_signal_connect_page priv widget ⟨Signal.child_notify_title, Callback.on_child_updated⟩
    let priv := g_signal_connect_page priv widget
      ⟨Signal.child_notify_needs_attention, Callback.on_child_updated⟩
    let priv := g_signal_connect_page priv widget ⟨Signal.notify_visible, Callback.on_child_updated⟩
    let priv := g_signal_connect_page priv widget
      ⟨Signal.child_notify_position, Callback.on_position_updated⟩
    let row := { row with stack_child := some widget }
    let priv := { priv with rows := g_hash_table_insert priv.rows widget row.id }
    gtk_list_box_add priv row

/-- Source `remove_child` (lines 302-318). -/
def remove_child (widget : Nat) (priv : GtkStackSidebarPrivate) : GtkStackSidebarPrivate :=
  match g_hash_table_lookup priv.rows widget with
  | none => priv
  | some row =>
    let priv := g_signal_handlers_disconnect_page priv widget Callback.on_child_updated
    let priv := g_signal_handlers_disconnect_page priv widget Callback.on_position_updated
    let priv := gtk_list_box_remove priv row
    { priv with rows := g_hash_table_remove priv.rows widget }

/-- Toolkit: `gtk_container_foreach (GTK_CONTAINER (priv->stack), callback, stack_sidebar)`:
the callback runs for every child of the attached stack, in the order of the
children. -/
def gtk_container_foreach (priv : GtkStackSidebarPrivate)
    (callback : Nat → GtkStackSidebarPrivate → GtkStackSidebarPrivate) : GtkStackSidebarPrivate :=
  match priv.stack with
  | none => priv
  | some st => (st.children.map (fun p => p.widget)).foldl (fun s w => callback w s) priv

/-- Source `populate_stack_sidebar` (lines 320-334). -/
def populate_stack_sidebar (priv : GtkStackSidebarPrivate) : GtkStackSidebarPrivate :=
  let priv := gtk_container_foreach priv add_child
  match gtk_stack_get_visible_child priv.stack with
  | some widget => dispatch (Call.select_row (g_hash_table_lookup priv.rows widget)) priv
  | none => priv

/-- Source `clear_stack_sidebar` (lines 336-342). -/
def clear_stack_sidebar (priv : GtkStackSidebarPrivate) : GtkStackSidebarPrivate :=
  gtk_container_foreach priv remove_child

/-- Source `on_stack_child_added` (lines 363-369). -/
def on_stack_child_added (widget : Nat) (priv : GtkStackSidebarPrivate) : GtkStackSidebarPrivate :=
  add_child widget priv

/-- Source `on_stack_child_removed` (lines 371-377). -/
def on_stack_child_removed (widget : Nat) (priv : GtkStackSidebarPrivate) : GtkStackSidebarPrivate :=
  remove_child widget priv

/-! ## Public interface -/

/-- Source `gtk_stack_sidebar_init` (lines 173-206): the state of a new sidebar. -/
def gtk_stack_sidebar_init : GtkStackSidebarPrivate :=
  { list := { rows := [], selected_row := none }, stack := none, rows := [],
    in_child_changed := false, next_row := 0, set_visible_child_calls := 0 }

/-- Source `gtk_stack_sidebar_set_stack` (lines 472-502).  The comparison
`priv->stack == stack` compares addresses. -/
def gtk_stack_sidebar_set_stack (priv : GtkStackSidebarPrivate) (stack : Option GtkStack) :
    GtkStackSidebarPrivate :=
  if priv.stack.map (fun st => st.id) = stack.map (fun st => st.id) then priv
  else
    let priv :=
      match priv.stack with
      | some _ =>
        let priv := disconnect_stack_signals priv
        let priv := clear_stack_sidebar priv
        { priv with stack := none }
      | none => priv
    match stack with
    | some st =>
      let priv := { priv with stack := some st }
      let priv := populate_stack_sidebar priv
      connect_stack_signals priv
    | none => priv

/-- Source `gtk_stack_sidebar_get_stack` (lines 516-526): the address of the
attached stack. -/
def gtk_stack_sidebar_get_stack (priv : GtkStackSidebarPrivate) : Option Nat :=
  priv.stack.map (fun st => st.id)

/-- Source `gtk_stack_sidebar_dispose` (lines 405-413). -/
def gtk_stack_sidebar_dispose (priv : GtkStackSidebarPrivate) : GtkStackSidebarPrivate :=
  gtk_stack_sidebar_set_stack priv none

/-! ## Events on the attached container

What the application or the user does to the attached stack, its pages and
the list, with the signal emissions that follow.  A handler connected with
`g_signal_connect_after` on `add` or `remove` runs after the stack has
updated its children and its active page. -/

/-- Toolkit: emission of a signal of the attached stack that carries a child
widget (`add`, `remove`): every matching connection runs its handler, in order. -/
def emit_stack_signal (priv : GtkStackSidebarPrivate) (sig : Signal) (cb : Callback)
    (handler : GtkStackSidebarPrivate → GtkStackSidebarPrivate) : GtkStackSidebarPrivate :=
  match priv.stack with
  | none => priv
  | some st =>
    (st.handlers.filter (fun c => decide (c = ⟨sig, cb⟩))).foldl (fun s _ => handler s) priv

/-- Toolkit: emission of a signal of a page of the attached stack. -/
def emit_page_signal (priv : GtkStackSidebarPrivate) (widget : Nat) (sig : Signal) (cb : Callback)
    (handler : GtkStackSidebarPrivate → GtkStackSidebarPrivate) : GtkStackSidebarPrivate :=
  match gtk_container_child_get priv.stack (some widget) with
  | none => priv
  | some p =>
    (p.handlers.filter (fun c => decide (c = ⟨sig, cb⟩))).foldl (fun s _ => handler s) priv

/-- Toolkit: the stack changes its active page by itself (or for the
application).  With `child = none` the first visible child is taken, if any.
`notify::visible-child` is emitted when the active page changed. -/
def gtk_stack_update_visible_child (priv : GtkStackSidebarPrivate) (child : Option Nat) :
    GtkStackSidebarPrivate :=
  match priv.stack with
  | none => priv
  | some st =>
    let target :=
      match child with
      | some w => some w
      | none => (st.children.find? (fun p => p.visible)).map (fun p => p.widget)
    if target = st.visible_child then priv
    else dispatch Call.notify_visible_child
      { priv with stack := some { st with visible_child := target } }

/-- Toolkit: the application adds a page to the attached stack.  The page
is appended to the children; it becomes the active page when the stack has none
and the page is visible; then the handlers of `add` run.  A widget that is
already a child is rejected. -/
def gtk_stack_add (priv : GtkStackSidebarPrivate) (page : Page) : GtkStackSidebarPrivate :=
  match priv.stack with
  | none => priv
  | some st =>
    if st.children.any (fun p => decide (p.widget = page.widget)) then priv
    else
      let priv := { priv with stack := some { st with children := st.children ++ [page] } }
      let priv :=
        if st.visible_child.isNone && page.visible then
          gtk_stack_update_visible_child priv (some page.widget)
        else priv
      emit_stack_signal priv Signal.add Callback.on_stack_child_added
        (on_stack_child_added page.widget)

/-- Toolkit: the application removes a page from the attached stack.  The page
leaves the children; when it was the active page the stack takes its first
visible child instead; then the handlers of `remove` run. -/
def gtk_stack_remove (priv : GtkStackSidebarPrivate) (widget : Nat) : GtkStackSidebarPrivate :=
  match priv.stack with
  | none => priv
  | some st =>
    if st.children.any (fun p => decide (p.widget = widget)) then
      let priv := { priv with stack := some { st with
        children := st.children.filter (fun p => decide (p.widget ≠ widget)) } }
      let priv :=
        if st.visible_child = some widget then gtk_stack_update_visible_child priv none
        else priv
      emit_stack_signal priv Signal.remove Callback.on_stack_child_removed
        (on_stack_child_removed widget)
    else priv

/-- Toolkit: a change of the pages of the attached stack that are the widget. -/
def set_page (priv : GtkStackSidebarPrivate) (widget : Nat) (f : Page → Page) :
    GtkStackSidebarPrivate :=
  match priv.stack with
  | none => priv
  | some st =>
    { priv with stack := some { st with
        children := st.children.map (fun p => if p.widget = widget then f p else p) } }

/-- Toolkit: the application sets the child property `title` of a page. -/
def set_title (priv : GtkStackSidebarPrivate) (widget : Nat) (title : Option String) :
    GtkStackSidebarPrivate :=
  emit_page_signal (set_page priv widget (fun p => { p with title := title })) widget
    Signal.child_notify_title Callback.on_child_updated (on_child_updated widget)

/-- Toolkit: the application sets the child property `needs-attention` of a page. -/
def set_needs_attention (priv : GtkStackSidebarPrivate) (widget : Nat) (b : Bool) :
    GtkStackSidebarPrivate :=
  emit_page_signal (set_page priv widget (fun p => { p with needs_attention := b })) widget
    Signal.child_notify_needs_attention Callback.on_child_updated (on_child_updated widget)

/-- Toolkit: the application shows or hides a page.  The stack reacts first: a
page shown while there is no active page becomes the active page, and when the
active page is hidden the first visible child takes over.  Then the handlers
of `notify::visible` run. -/
def set_visible (priv : GtkStackSidebarPrivate) (widget : Nat) (b : Bool) :
    GtkStackSidebarPrivate :=
  let priv := set_page priv widget (fun p => { p with visible := b })
  let priv :=
    match priv.stack with
    | none => priv
    | some st =>
      if st.children.any (fun p => decide (p.widget = widget)) then
        if st.visible_child.isNone && b then gtk_stack_update_visible_child priv (some widget)
        else if decide (st.visible_child = some widget) && !b then
          gtk_stack_update_visible_child priv none
        else priv
      else priv
  emit_page_signal priv widget Signal.notify_visible Callback.on_child_updated
    (on_child_updated widget)

/-- Toolkit: the application sets the child property `position` of a page.  The
model keeps the position as an attribute of the page, as the data model of the
specification does; the stack itself derives it from the order of its children
and so changes the positions of the pages in between as well, which the model
leaves to further `position_changed` events. -/
def set_position (priv : GtkStackSidebarPrivate) (widget : Nat) (pos : Int) :
    GtkStackSidebarPrivate :=
  emit_page_signal (set_page priv widget (fun p => { p with position := pos })) widget
    Signal.child_notify_position Callback.on_position_updated on_position_updated

/-- Toolkit: the application makes a child of the attached stack its active page
(its own call of `gtk_stack_set_visible_child`, not counted); the stack does
nothing for a widget that is not a child or is hidden. -/
def set_visible_child_external (priv : GtkStackSidebarPrivate) (widget : Nat) :
    GtkStackSidebarPrivate :=
  match priv.stack with
  | none => priv
  | some st =>
    match st.children.find? (fun p => decide (p.widget = widget)) with
    | none => priv
    | some p =>
      if p.visible then gtk_stack_update_visible_child priv (some widget)
      else priv

/-- Toolkit: the user selects a row of the list. -/
def user_select_row (priv : GtkStackSidebarPrivate) (row : Nat) : GtkStackSidebarPrivate :=
  dispatch (Call.select_row (some row)) priv

/-- Toolkit: the attached stack is destroyed.  The handlers connected on
`destroy` run first; then the container destroys its children, each of which is
removed from it as by `gtk_stack_remove`. -/
def gtk_widget_destroy (priv : GtkStackSidebarPrivate) : GtkStackSidebarPrivate :=
  let priv := emit_stack_signal priv Signal.destroy Callback.disconnect_stack_signals
    disconnect_stack_signals
  match priv.stack with
  | none => priv
  | some st => (st.children.map (fun p => p.widget)).foldl gtk_stack_remove priv

/-- An event the sidebar can observe. -/
inductive Event where
  | set_stack (stack : Option GtkStack)
  | page_added (page : Page)
  | page_removed (widget : Nat)
  | title_changed (widget : Nat) (title : Option String)
  | needs_attention_changed (widget : Nat) (b : Bool)
  | visible_changed (widget : Nat) (b : Bool)
  | position_changed (widget : Nat) (pos : Int)
  | active_page_changed (widget : Nat)
  | row_selected (row : Nat)
  | destroy
  deriving DecidableEq, Repr

/-- The state after one event. -/
def step (s : GtkStackSidebarPrivate) : Event → GtkStackSidebarPrivate
  | Event.set_stack stack => gtk_stack_sidebar_set_stack s stack
  | Event.page_added page => gtk_stack_add s page
  | Event.page_removed widget => gtk_stack_remove s widget
  | Event.title_changed widget title => set_title s widget title
  | Event.needs_attention_changed widget b => set_needs_attention s widget b
  | Event.visible_changed widget b => set_visible s widget b
  | Event.position_changed widget pos => set_position s widget pos
  | Event.active_page_changed widget => set_visible_child_external s widget
  | Event.row_selected row => user_select_row s row
  | Event.destroy => gtk_widget_destroy s

/-- The state after a sequence of events. -/
def run (s : GtkStackSidebarPrivate) (events : List Event) : GtkStackSidebarPrivate :=
  events.foldl step s

/-! ## Notions used by the properties -/

/-- The position of a row as the comparator sees it: the position of the page of
a present row, `0` for an absent row (and for a row whose page the attached stack
does not know). -/
def pos (priv : GtkStackSidebarPrivate) (row : Option Row) : Int :=
  match row with
  | none => 0
  | some r => ((gtk_container_child_get priv.stack r.stack_child).map (fun p => p.position)).getD 0

/-- A row without regard to its header. -/
def Row.core (r : Row) : Row := { r with header := false }

/-- The rows the list displays: the visible ones, in order. -/
def displayed (l : List Row) : List Row := l.filter (fun r => r.visible)

/-- A title that is present and not the empty text. -/
def title_non_empty (title : Option String) : Bool :=
  match title with
  | some t => decide (t ≠ "")
  | none => false

/-- A page without regard to the connections made on it. -/
def Page.attrs (p : Page) : Page := { p with handlers := [] }

/-- The pages of the attached stack without regard to connections. -/
def page_attrs (s : GtkStackSidebarPrivate) : Option (List Page) :=
  s.stack.map (fun st => st.children.map Page.attrs)

/-- The four connections `add_child` makes on a page, in its order. -/
def connect_page_signals (s : GtkStackSidebarPrivate) (widget : Nat) : GtkStackSidebarPrivate :=
  let s := g_signal_connect_page s widget ⟨Signal.child_notify_title, Callback.on_child_updated⟩
  let s := g_signal_connect_page s widget
    ⟨Signal.child_notify_needs_attention, Callback.on_child_updated⟩
  let s := g_signal_connect_page s widget ⟨Signal.notify_visible, Callback.on_child_updated⟩
  g_signal_connect_page s widget ⟨Signal.child_notify_position, Callback.on_position_updated⟩

/-- The row `add_child` builds for a page before it is put into the list. -/
def new_row (s : GtkStackSidebarPrivate) (widget id : Nat) : Row :=
  let row := update_row s widget (gtk_list_box_row_new id)
  let row := { row with item_class := true }
  { row with stack_child := some widget }

/-- What holds of the map and the list while `populate_stack_sidebar` has added
rows for the pages `done`: the keys of the map are the pages of `done`, each
once; the rows of the list are the rows of the map entries; the list is in
ascending position; every row is as `add_child` derives it from its page. -/
def PopInv (done : List Nat) (s : GtkStackSidebarPrivate) : Prop :=
  (s.rows.map Prod.fst).Nodup ∧
  (∀ w, w ∈ s.rows.map Prod.fst ↔ w ∈ done) ∧
  (s.list.rows.map (fun r => (r.stack_child, r.id))).Perm
    (s.rows.map (fun e => (some e.1, e.2))) ∧
  (s.list.rows.map (fun r => pos s (some r))).Pairwise (fun a b => a ≤ b) ∧
  (∀ r ∈ s.list.rows, ∃ w, r.stack_child = some w ∧ r.core = (new_row s w r.id).core)

/-- The state `t` differs from `s` at most in the selection, the active page,
the guard flag and the bookkeeping. -/
def Frame (s t : GtkStackSidebarPrivate) : Prop :=
  t.rows = s.rows ∧ t.list.rows = s.list.rows ∧
  t.stack.map (fun st => (st.id, st.children, st.handlers)) =
    s.stack.map (fun st => (st.id, st.children, st.handlers))

/-- The connections on the attached stack. -/
def stack_handlers (s : GtkStackSidebarPrivate) : List Connection :=
  (s.stack.map (fun st => st.handlers)).getD []

/-- The pages (widgets) of the attached stack. -/
def widgets (s : GtkStackSidebarPrivate) : List Nat :=
  (s.stack.map (fun st => st.children.map (fun p => p.widget))).getD []

/-- Every row of the list is the row the map gives for some page. -/
def ListInMap (s : GtkStackSidebarPrivate) : Prop :=
  ∀ r ∈ s.list.rows, ∃ w, g_hash_table_lookup s.rows w = some r.id

/-- What holds between events of a sidebar attached to the stack with address
`cid`: the handler of `remove` is connected, every key of the map is a page of
the stack (or one of `extra`, while a removal is being handled), and every row
of the list belongs to a map entry. -/
def Inv (cid : Nat) (extra : List Nat) (s : GtkStackSidebarPrivate) : Prop :=
  gtk_stack_sidebar_get_stack s = some cid ∧
  ⟨Signal.remove, Callback.on_stack_child_removed⟩ ∈ stack_handlers s ∧
  (∀ e ∈ s.rows, e.1 ∈ widgets s ∨ e.1 ∈ extra) ∧
  ListInMap s

/-- The events that happen on the attached stack, its pages or the list, leaving
the attachment itself alone. -/
def Event.on_attached_stack : Event → Bool
  | Event.set_stack _ => false
  | Event.destroy => false
  | _ => true

/-- The sidebar `s0` attached to `C`, then the events, then attached to `D`. -/
def reattached (s0 : GtkStackSidebarPrivate) (C : GtkStack) (events : List Event)
    (D : GtkStack) : GtkStackSidebarPrivate :=
  gtk_stack_sidebar_set_stack (run (gtk_stack_sidebar_set_stack s0 (some C)) events) (some D)

/-- The state after the handler of `notify::visible-child` has run. -/
def on_child_changed_result (s : GtkStackSidebarPrivate) : GtkStackSidebarPrivate :=
  match (gtk_stack_get_visible_child s.stack).bind (g_hash_table_lookup s.rows) with
  | some r =>
    match s.list.rows.find? (fun x => decide (x.id = r)) with
    | none => { s with in_child_changed := false }
    | some _ => { s with list := { s.list with selected_row := some r }, in_child_changed := false }
  | none => s

/-- The state after the emission of `notify::visible-child`. -/
def notify_result (s : GtkStackSidebarPrivate) : GtkStackSidebarPrivate :=
  match s.stack with
  | none => s
  | some st =>
    (st.handlers.filter
      (fun c => decide (c = ⟨Signal.notify_visible_child, Callback.on_child_changed⟩))).foldl
      (fun s _ => on_child_changed_result s) s

/-- The state after `gtk_stack_set_visible_child` called by the sidebar. -/
def set_visible_child_result (s : GtkStackSidebarPrivate) (widget : Option Nat) :
    GtkStackSidebarPrivate :=
  let s1 := { s with set_visible_child_calls := s.set_visible_child_calls + 1 }
  match s.stack, widget with
  | some st, some w =>
    match st.children.find? (fun p => decide (p.widget = w)) with
    | none => s1
    | some p =>
      if p.visible then
        if st.visible_child = some w then s1
        else notify_result { s1 with stack := some { st with visible_child := some w } }
      else s1
  | _, _ => s1

/-- The state after the handler of `row-selected` has run. -/
def row_selected_result (s : GtkStackSidebarPrivate) (row : Option Row) : GtkStackSidebarPrivate :=
  if s.in_child_changed then s
  else
    match row with
    | none => s
    | some r => set_visible_child_result s r.stack_child

/-- The state after `gtk_list_box_select_row`. -/
def select_row_result (s : GtkStackSidebarPrivate) (row : Option Nat) : GtkStackSidebarPrivate :=
  match row with
  | some r =>
    match s.list.rows.find? (fun x => decide (x.id = r)) with
    | none => s
    | some x =>
      if s.list.selected_row = some r then s
      else row_selected_result { s with list := { s.list with selected_row := some r } } (some x)
  | none =>
    if s.list.selected_row.isSome then
      row_selected_result { s with list := { s.list with selected_row := none } } none
    else s

/-- The state after a call of the selection cycle. -/
def call_result (c : Call) (s : GtkStackSidebarPrivate) : GtkStackSidebarPrivate :=
  match c with
  | Call.row_selected row => row_selected_result s row
  | Call.set_visible_child w => set_visible_child_result s w
  | Call.notify_visible_child => notify_result s
  | Call.on_child_changed => on_child_changed_result s
  | Call.select_row r => select_row_result s r

/-! ## Example inputs -/

/-- A page without connections. -/
def ex_page (widget : Nat) (title : Option String) (visible : Bool) (position : Int) : Page :=
  { widget := widget, title := title, needs_attention := false, visible := visible,
    position := position, handlers := [] }

/-- A stack with a single visible page titled "a", which is its active page. -/
def ex_stack_one : GtkStack :=
  { id := 100, children := [ex_page 1 (some "a") true 0], visible_child := some 1, handlers := [] }

/-- A stack with two visible titled pages; the first is the active page. -/
def ex_stack_two : GtkStack :=
  { id := 100, children := [ex_page 1 (some "a") true 0, ex_page 2 (some "b") true 1],
    visible_child := some 1, handlers := [] }

/-- A stack without pages. -/
def ex_stack_empty : GtkStack :=
  { id := 100, children := [], visible_child := none, handlers := [] }

/-- A stack whose only page has no title. -/
def ex_stack_untitled : GtkStack :=
  { id := 100, children := [ex_page 1 none true 0], visible_child := some 1, handlers := [] }

/-- A second stack, with one page. -/
def ex_stack_other : GtkStack :=
  { id := 200, children := [ex_page 7 (some "x") true 0], visible_child := some 7, handlers := [] }

/-- A sidebar with `ex_stack_one` as its stack and nothing else. -/
def ex_priv_one : GtkStackSidebarPrivate :=
  { gtk_stack_sidebar_init with stack := some ex_stack_one }

/-- A new sidebar attached to `ex_stack_one`, whose page then gets the empty
text as title. -/
def ex_after_empty_title : GtkStackSidebarPrivate :=
  run gtk_stack_sidebar_init [Event.set_stack (some ex_stack_one), Event.title_changed 1 (some "")]

/-- A new sidebar attached to the empty stack, to which a visible page is then
added; the stack makes it its active page. -/
def ex_after_first_page : GtkStackSidebarPrivate :=
  run gtk_stack_sidebar_init
    [Event.set_stack (some ex_stack_empty), Event.page_added (ex_page 1 (some "a") true 0)]

/-- A new sidebar attached to `ex_stack_two`. -/
def ex_attached_two : GtkStackSidebarPrivate :=
  run gtk_stack_sidebar_init [Event.set_stack (some ex_stack_two)]

/-- The sidebar attached to `ex_stack_two` after the first page was removed. -/
def ex_after_first_removed : GtkStackSidebarPrivate :=
  run gtk_stack_sidebar_init [Event.set_stack (some ex_stack_two), Event.page_removed 1]

/-- A new sidebar attached to `ex_stack_one`, the stack then being destroyed. -/
def ex_after_destroy : GtkStackSidebarPrivate :=
  run gtk_stack_sidebar_init [Event.set_stack (some ex_stack_one), Event.destroy]

/-- The sidebar of `ex_after_destroy` detached afterwards. -/
def ex_after_destroy_detach : GtkStackSidebarPrivate :=
  run gtk_stack_sidebar_init
    [Event.set_stack (some ex_stack_one), Event.destroy, Event.set_stack none]

/-- A new sidebar attached to a stack whose only page has no title. -/
def ex_attached_untitled : GtkStackSidebarPrivate :=
  run gtk_stack_sidebar_init [Event.set_stack (some ex_stack_untitled)]

/-! ## Lemmas on the list box -/

theorem update_header_core (r : Row) (b : Option Row) : (update_header r b).core = r.core := by
  unfold update_header Row.core
  split <;> rfl

theorem update_headers_map_core (l : List Row) :
    ∀ b, (gtk_list_box_update_headers b l).map Row.core = l.map Row.core := by
  induction l with
  | nil => intro b; rfl
  | cons r rs ih =>
    intro b
    unfold gtk_list_box_update_headers
    split
    · simp [update_header_core, ih]
    · simp [ih, Row.core]

theorem core_id (r : Row) : r.core.id = r.id := rfl

theorem core_stack_child (r : Row) : r.core.stack_child = r.stack_child := rfl

theorem core_visible (r : Row) : r.core.visible = r.visible := rfl

theorem map_core_eq_imp {l1 l2 : List Row} (h : l1.map Row.core = l2.map Row.core)
    (f : Row → α) (hf : ∀ r, f r = f r.core) : l1.map f = l2.map f := by
  have h1 : ∀ l : List Row, l.map f = (l.map Row.core).map f := by
    intro l
    rw [List.map_map]
    apply List.map_congr_left
    intro r _
    exact hf r
  rw [h1 l1, h1 l2, h]

theorem pos_core (priv : GtkStackSidebarPrivate) (r : Row) :
    pos priv (some r) = pos priv (some r.core) := rfl

theorem sort_list_eq (priv : GtkStackSidebarPrivate) (r1 r2 : Option Row) :
    sort_list priv r1 r2 =
      if pos priv r1 < pos priv r2 then -1 else if pos priv r1 = pos priv r2 then 0 else 1 := by
  have key : ∀ o : Option Page,
      (match o with
        | some p => p.position
        | none => (0 : Int)) = (o.map (fun p => p.position)).getD 0 := by
    intro o
    cases o <;> rfl
  unfold sort_list pos
  cases r1 <;> cases r2 <;> simp only [key]

theorem insert_sorted_perm (cmp : Option Row → Option Row → Int) (row : Row) (l : List Row) :
    (insert_sorted cmp row l).Perm (row :: l) := by
  induction l with
  | nil => exact List.Perm.refl _
  | cons r rs ih =>
    unfold insert_sorted
    split
    · exact List.Perm.refl _
    · exact (List.Perm.cons r ih).trans (List.Perm.swap row r rs)

theorem insert_sorted_pairwise (priv : GtkStackSidebarPrivate) (row : Row) (l : List Row)
    (h : l.Pairwise (fun a b => pos priv (some a) ≤ pos priv (some b))) :
    (insert_sorted (sort_list priv) row l).Pairwise
      (fun a b => pos priv (some a) ≤ pos priv (some b)) := by
  induction l with
  | nil => simp [insert_sorted]
  | cons r rs ih =>
    unfold insert_sorted
    rw [List.pairwise_cons] at h
    split
    · rename_i hgt
      rw [sort_list_eq] at hgt
      have hlt : pos priv (some row) < pos priv (some r) := by
        by_contra hc
        split at hgt
        · omega
        · split at hgt <;> omega
      rw [List.pairwise_cons]
      refine ⟨?_, List.pairwise_cons.mpr h⟩
      intro x hx
      rcases List.mem_cons.mp hx with hx | hx
      · subst hx; omega
      · have := h.1 x hx
        omega
    · rename_i hle
      rw [sort_list_eq] at hle
      have hle2 : pos priv (some r) ≤ pos priv (some row) := by
        by_contra hc
        apply hle
        rw [if_neg (by omega), if_neg (by omega)]
        decide
      rw [List.pairwise_cons]
      refine ⟨?_, ih h.2⟩
      intro x hx
      have hx2 := (insert_sorted_perm (sort_list priv) row rs).mem_iff.mp hx
      rcases List.mem_cons.mp hx2 with hx3 | hx3
      · subst hx3; exact hle2
      · exact h.1 x hx3

theorem sort_rows_spec (priv : GtkStackSidebarPrivate) (rows : List Row) :
    ∀ acc : List Row, acc.Pairwise (fun a b => pos priv (some a) ≤ pos priv (some b)) →
      (rows.foldl (fun acc r => insert_sorted (sort_list priv) r acc) acc).Pairwise
          (fun a b => pos priv (some a) ≤ pos priv (some b)) ∧
        (rows.foldl (fun acc r => insert_sorted (sort_list priv) r acc) acc).Perm (rows ++ acc) := by
  induction rows with
  | nil => intro acc h; exact ⟨h, List.Perm.refl _⟩
  | cons r rs ih =>
    intro acc h
    have := ih (insert_sorted (sort_list priv) r acc) (insert_sorted_pairwise priv r acc h)
    refine ⟨this.1, this.2.trans ?_⟩
    have h1 : (rs ++ insert_sorted (sort_list priv) r acc).Perm (rs ++ r :: acc) :=
      List.Perm.append_left rs (insert_sorted_perm _ r acc)
    exact h1.trans (List.perm_middle)

/-! ## Lemmas on pages and rows -/

theorem find_map_widget (l : List Page) (g : Page → Page) (hg : ∀ p, (g p).widget = p.widget)
    (w : Nat) :
    (l.map g).find? (fun p => decide (p.widget = w)) =
      (l.find? (fun p => decide (p.widget = w))).map g := by
  induction l with
  | nil => rfl
  | cons a l ih =>
    simp only [List.map_cons, List.find?_cons, hg]
    split
    · rfl
    · exact ih

theorem child_get_set_page (priv : GtkStackSidebarPrivate) (widget : Nat) (f : Page → Page)
    (hf : ∀ p, (f p).widget = p.widget) (w : Nat) :
    gtk_container_child_get (set_page priv widget f).stack (some w) =
      (gtk_container_child_get priv.stack (some w)).map
        (fun p => if p.widget = widget then f p else p) := by
  unfold set_page
  cases hst : priv.stack with
  | none => simp [gtk_container_child_get, hst]
  | some st =>
    simp only [gtk_container_child_get, hst]
    apply find_map_widget
    intro p
    split
    · exact hf p
    · rfl

theorem child_get_widget (stack : Option GtkStack) (w : Nat) (p : Page)
    (h : gtk_container_child_get stack (some w) = some p) : p.widget = w := by
  unfold gtk_container_child_get at h
  cases stack with
  | none => simp at h
  | some st =>
    simp only [] at h
    have := List.find?_some h
    simpa using this

theorem update_row_id (priv : GtkStackSidebarPrivate) (widget : Nat) (row : Row) :
    (update_row priv widget row).id = row.id := by
  unfold update_row
  split
  · rfl
  · simp only []
    split <;> rfl

theorem on_child_updated_rows (priv : GtkStackSidebarPrivate) (widget r : Nat)
    (hr : g_hash_table_lookup priv.rows widget = some r) (x : Row)
    (hx : x ∈ (on_child_updated widget priv).list.rows) (hxr : x.id = r) :
    ∃ y ∈ priv.list.rows, y.id = r ∧ x.core = (update_row priv widget y).core := by
  unfold on_child_updated at hx
  rw [hr] at hx
  simp only [] at hx
  have hc : x.core ∈ (gtk_list_box_update_headers none
      (priv.list.rows.map (fun x => if x.id = r then update_row priv widget x else x))).map
        Row.core := List.mem_map_of_mem _ hx
  rw [update_headers_map_core] at hc
  obtain ⟨z, hz, hzx⟩ := List.mem_map.mp hc
  obtain ⟨y, hy, hyz⟩ := List.mem_map.mp hz
  have hzid : z.id = r := by
    have := congrArg Row.id hzx
    simp only [core_id] at this
    rw [this, hxr]
  have hyid : y.id = r := by
    by_cases hy : y.id = r
    · exact hy
    · rw [if_neg hy] at hyz
      rw [hyz]
      exact hzid
  rw [if_pos hyid] at hyz
  exact ⟨y, hy, hyid, by rw [hyz, hzx]⟩

/-! ## The selection cycle terminates -/

theorem foldlM_some_eq {σ β : Type} (f : σ → Option σ) (g : σ → σ) (h : ∀ s, f s = some (g s))
    (l : List β) : ∀ s, l.foldlM (fun s _ => f s) s = some (l.foldl (fun s _ => g s) s) := by
  induction l with
  | nil => intro s; rfl
  | cons a l ih =>
    intro s
    rw [List.foldlM_cons, h]
    exact ih (g s)

theorem exec_row_selected_guarded (n : Nat) (s : GtkStackSidebarPrivate) (row : Option Row)
    (h : s.in_child_changed = true) :
    exec (n + 1) (Call.row_selected row) s = some (row_selected_result s row) := by
  simp [exec, gtk_stack_sidebar_row_selected, row_selected_result, h]

theorem exec_select_row_guarded (n : Nat) (s : GtkStackSidebarPrivate) (row : Option Nat)
    (h : s.in_child_changed = true) :
    exec (n + 2) (Call.select_row row) s = some (select_row_result s row) := by
  show gtk_list_box_select_row (exec (n + 1)) s row = _
  unfold gtk_list_box_select_row select_row_result
  cases row with
  | none =>
    simp only []
    split
    · exact exec_row_selected_guarded n _ none h
    · rfl
  | some r =>
    simp only []
    split
    · rfl
    · split
      · rfl
      · exact exec_row_selected_guarded n _ _ h

theorem select_row_result_guarded (s : GtkStackSidebarPrivate) (r : Nat)
    (h : s.in_child_changed = true) :
    select_row_result s (some r) =
      match s.list.rows.find? (fun x => decide (x.id = r)) with
      | none => s
      | some _ => { s with list := { s.list with selected_row := some r } } := by
  unfold select_row_result
  simp only []
  split
  · rfl
  · split
    · rename_i hs
      cases s with
      | mk l st rw f nr c =>
        cases l with
        | mk rows sel =>
          simp only at hs
          simp [hs]
    · simp [row_selected_result, h]

theorem exec_on_child_changed (n : Nat) (s : GtkStackSidebarPrivate) :
    exec (n + 3) Call.on_child_changed s = some (on_child_changed_result s) := by
  show on_child_changed (exec (n + 2)) s = _
  unfold on_child_changed on_child_changed_result
  simp only []
  split
  · rename_i r hr
    rw [exec_select_row_guarded n _ _ rfl, select_row_result_guarded _ _ rfl]
    simp only [Option.map]
    cases hf : List.find? (fun x => decide (x.id = r)) s.list.rows <;> simp [hf]
  · rfl

theorem exec_notify (n : Nat) (s : GtkStackSidebarPrivate) :
    exec (n + 4) Call.notify_visible_child s = some (notify_result s) := by
  show notify_visible_child (exec (n + 3)) s = _
  unfold notify_visible_child notify_result
  split
  · rfl
  · exact foldlM_some_eq _ _ (exec_on_child_changed n) _ _

theorem exec_set_visible_child (n : Nat) (s : GtkStackSidebarPrivate) (w : Option Nat) :
    exec (n + 5) (Call.set_visible_child w) s = some (set_visible_child_result s w) := by
  show gtk_stack_set_visible_child (exec (n + 4)) s w = _
  unfold gtk_stack_set_visible_child set_visible_child_result
  simp only []
  split
  · split
    · rfl
    · split
      · split
        · rfl
        · exact exec_notify n _
      · rfl
  · rfl

theorem exec_row_selected (n : Nat) (s : GtkStackSidebarPrivate) (row : Option Row) :
    exec (n + 6) (Call.row_selected row) s = some (row_selected_result s row) := by
  show gtk_stack_sidebar_row_selected (exec (n + 5)) s row = _
  unfold gtk_stack_sidebar_row_selected row_selected_result
  split
  · rfl
  · cases row with
    | none => rfl
    | some r => exact exec_set_visible_child n s _

theorem exec_select_row (n : Nat) (s : GtkStackSidebarPrivate) (row : Option Nat) :
    exec (n + 7) (Call.select_row row) s = some (select_row_result s row) := by
  show gtk_list_box_select_row (exec (n + 6)) s row = _
  unfold gtk_list_box_select_row select_row_result
  cases row with
  | none =>
    simp only []
    split
    · exact exec_row_selected n _ none
    · rfl
  | some r =>
    simp only []
    split
    · rfl
    · split
      · rfl
      · exact exec_row_selected n _ _

/-- Every call of the selection cycle returns within depth `7`, in every state,
and a greater depth gives the same state. -/
theorem exec_total (n : Nat) (c : Call) (s : GtkStackSidebarPrivate) :
    exec (n + 7) c s = some (call_result c s) := by
  cases c with
  | row_selected row => exact exec_row_selected (n + 1) s row
  | set_visible_child w => exact exec_set_visible_child (n + 2) s w
  | notify_visible_child => exact exec_notify (n + 3) s
  | on_child_changed => exact exec_on_child_changed (n + 4) s
  | select_row r => exact exec_select_row n s r

theorem exec_stable (n : Nat) (c : Call) (s : GtkStackSidebarPrivate) :
    exec (n + 7) c s = exec 7 c s := by
  rw [exec_total n c s]
  exact (exec_total 0 c s).symm

theorem dispatch_eq (c : Call) (s : GtkStackSidebarPrivate) : dispatch c s = call_result c s := by
  unfold dispatch
  rw [exec_total 0 c s]
  rfl

theorem lookup_none_iff (t : List (Nat × Nat)) (k : Nat) :
    g_hash_table_lookup t k = none ↔ ∀ e ∈ t, e.1 ≠ k := by
  induction t with
  | nil => simp [g_hash_table_lookup]
  | cons a t ih =>
    obtain ⟨k1, v⟩ := a
    unfold g_hash_table_lookup
    by_cases h : k1 = k
    · simp [h]
    · simp [h, ih]

theorem lookup_some_mem (t : List (Nat × Nat)) (k v : Nat)
    (h : g_hash_table_lookup t k = some v) : (k, v) ∈ t := by
  induction t with
  | nil => simp [g_hash_table_lookup] at h
  | cons a t ih =>
    obtain ⟨k1, v1⟩ := a
    unfold g_hash_table_lookup at h
    by_cases hk : k1 = k
    · simp [hk] at h
      simp [hk, h]
    · simp [hk] at h
      exact List.mem_cons_of_mem _ (ih h)

theorem remove_of_lookup_none (t : List (Nat × Nat)) (k : Nat)
    (h : g_hash_table_lookup t k = none) : g_hash_table_remove t k = t := by
  unfold g_hash_table_remove
  rw [List.filter_eq_self]
  intro e he
  simpa using (lookup_none_iff t k).mp h e he

theorem lookup_remove_ne (t : List (Nat × Nat)) (k w : Nat) (h : w ≠ k) :
    g_hash_table_lookup (g_hash_table_remove t k) w = g_hash_table_lookup t w := by
  induction t with
  | nil => rfl
  | cons a t ih =>
    obtain ⟨k1, v⟩ := a
    unfold g_hash_table_remove at ih ⊢
    simp only [ne_eq, decide_not] at ih ⊢
    by_cases hk : k1 = k
    · subst hk
      have hne : ¬ k1 = w := fun e => h e.symm
      simp [List.filter_cons, g_hash_table_lookup, hne, ih]
    · by_cases hw : k1 = w
      · subst hw
        simp [List.filter_cons, hk, g_hash_table_lookup]
      · simp [List.filter_cons, hk, g_hash_table_lookup, hw, ih]

theorem lookup_remove_self (t : List (Nat × Nat)) (k : Nat) :
    g_hash_table_lookup (g_hash_table_remove t k) k = none := by
  rw [lookup_none_iff]
  intro e he
  unfold g_hash_table_remove at he
  simpa using (List.mem_filter.mp he).2

theorem row_selected_result_none (s : GtkStackSidebarPrivate) :
    row_selected_result s none = s := by
  unfold row_selected_result
  split <;> rfl

theorem gtk_list_box_remove_eq (s : GtkStackSidebarPrivate) (row : Nat) :
    gtk_list_box_remove s row =
      { s with list :=
          { rows := gtk_list_box_update_headers none
              (s.list.rows.filter (fun x => decide (x.id ≠ row))),
            selected_row := if s.list.selected_row = some row then none else s.list.selected_row } } := by
  unfold gtk_list_box_remove
  simp only []
  split
  · rw [dispatch_eq]
    simp only [call_result, row_selected_result_none]
  · rfl

theorem disconnect_page_rows (s : GtkStackSidebarPrivate) (w : Nat) (f : Callback) :
    (g_signal_handlers_disconnect_page s w f).rows = s.rows ∧
    (g_signal_handlers_disconnect_page s w f).list = s.list := by
  unfold g_signal_handlers_disconnect_page
  split <;> exact ⟨rfl, rfl⟩

theorem remove_child_rows (w : Nat) (s : GtkStackSidebarPrivate) :
    (remove_child w s).rows = g_hash_table_remove s.rows w := by
  unfold remove_child
  cases h : g_hash_table_lookup s.rows w with
  | none => simp only []; exact (remove_of_lookup_none _ _ h).symm
  | some row =>
    simp only [gtk_list_box_remove_eq]
    rw [(disconnect_page_rows _ _ _).1, (disconnect_page_rows _ _ _).1]

theorem foldl_remove_child_rows (ws : List Nat) :
    ∀ s : GtkStackSidebarPrivate,
      (ws.foldl (fun s w => remove_child w s) s).rows =
        s.rows.filter (fun e => decide (e.1 ∉ ws)) := by
  induction ws with
  | nil => intro s; simp
  | cons w ws ih =>
    intro s
    simp only [List.foldl_cons]
    rw [ih, remove_child_rows]
    unfold g_hash_table_remove
    rw [List.filter_filter]
    apply List.filter_congr
    intro e _
    simp only [List.mem_cons, not_or, ne_eq, decide_not, Bool.and_eq_true, Bool.not_eq_true',
      decide_eq_false_iff_not, decide_eq_true_eq]
    by_cases h1 : e.1 = w <;> by_cases h2 : e.1 ∈ ws <;> simp [h1, h2]

theorem clear_stack_sidebar_rows (s : GtkStackSidebarPrivate) (st : GtkStack)
    (h : s.stack = some st) :
    (clear_stack_sidebar s).rows =
      s.rows.filter (fun e => decide (e.1 ∉ st.children.map (fun p => p.widget))) := by
  unfold clear_stack_sidebar gtk_container_foreach
  rw [h]
  exact foldl_remove_child_rows _ s

theorem disconnect_stack_signals_frame (s : GtkStackSidebarPrivate) :
    (disconnect_stack_signals s).rows = s.rows ∧
    (disconnect_stack_signals s).list = s.list ∧
    (disconnect_stack_signals s).stack.map (fun st => (st.id, st.children, st.visible_child)) =
      s.stack.map (fun st => (st.id, st.children, st.visible_child)) := by
  unfold disconnect_stack_signals
  split
  · rename_i h
    simp [h]
  · rename_i st h
    simp [h]

/-! ## Lemmas on the connections of the stack -/

theorem disconnect_stack_signals_eq (s : GtkStackSidebarPrivate) (st : GtkStack)
    (h : s.stack = some st) :
    disconnect_stack_signals s =
      { s with stack := some { st with handlers := st.handlers.filter (fun c =>
          decide (c.callback ≠ Callback.disconnect_stack_signals) &&
            (decide (c.callback ≠ Callback.on_child_changed) &&
              (decide (c.callback ≠ Callback.on_stack_child_removed) &&
                decide (c.callback ≠ Callback.on_stack_child_added)))) } } := by
  unfold disconnect_stack_signals
  rw [h]
  simp only [List.filter_filter]

theorem disconnect_stack_signals_idem (s : GtkStackSidebarPrivate) :
    disconnect_stack_signals (disconnect_stack_signals s) = disconnect_stack_signals s := by
  cases h : s.stack with
  | none => simp [disconnect_stack_signals, h]
  | some st =>
    rw [disconnect_stack_signals_eq s st h, disconnect_stack_signals_eq _ _ rfl]
    simp only [List.filter_filter, Bool.and_self]

theorem emit_stack_signal_none (s : GtkStackSidebarPrivate) (i : Nat) (ch : List Page)
    (vc : Option Nat) (hs : List Connection) (sig : Signal)
    (cb : Callback) (handler : GtkStackSidebarPrivate → GtkStackSidebarPrivate)
    (hno : ∀ c ∈ hs, c.callback ≠ cb) :
    emit_stack_signal { s with stack := some ⟨i, ch, vc, hs⟩ } sig cb handler =
      { s with stack := some ⟨i, ch, vc, hs⟩ } := by
  unfold emit_stack_signal
  simp only []
  have : hs.filter (fun c => decide (c = ⟨sig, cb⟩)) = [] := by
    rw [List.filter_eq_nil_iff]
    intro c hc
    simp only [decide_eq_true_eq]
    intro e
    exact hno c hc (by rw [e])
  rw [this]
  rfl

theorem notify_result_none (s : GtkStackSidebarPrivate) (i : Nat) (ch : List Page)
    (vc : Option Nat) (hs : List Connection)
    (hno : ∀ c ∈ hs, c.callback ≠ Callback.on_child_changed) :
    notify_result { s with stack := some ⟨i, ch, vc, hs⟩ } =
      { s with stack := some ⟨i, ch, vc, hs⟩ } := by
  unfold notify_result
  simp only []
  have : hs.filter
      (fun c => decide (c = ⟨Signal.notify_visible_child, Callback.on_child_changed⟩)) = [] := by
    rw [List.filter_eq_nil_iff]
    intro c hc
    simp only [decide_eq_true_eq]
    intro e
    exact hno c hc (by rw [e])
  rw [this]
  rfl

theorem gtk_stack_remove_disconnected (s : GtkStackSidebarPrivate) (st : GtkStack) (w : Nat)
    (hst : s.stack = some st)
    (hno : ∀ c ∈ st.handlers,
      c.callback ≠ Callback.on_child_changed ∧ c.callback ≠ Callback.on_stack_child_removed) :
    ∃ st1, gtk_stack_remove s w = { s with stack := some st1 } ∧ st1.id = st.id ∧
      st1.handlers = st.handlers := by
  unfold gtk_stack_remove
  rw [hst]
  simp only []
  split
  · split
    · unfold gtk_stack_update_visible_child
      simp only []
      split
      · rw [emit_stack_signal_none s _ _ _ _ _ _ _ (fun c hc => (hno c hc).2)]
        exact ⟨_, rfl, rfl, rfl⟩
      · rw [dispatch_eq]
        simp only [call_result]
        rw [notify_result_none s _ _ _ _ (fun c hc => (hno c hc).1),
          emit_stack_signal_none s _ _ _ _ _ _ _ (fun c hc => (hno c hc).2)]
        exact ⟨_, rfl, rfl, rfl⟩
    · rw [emit_stack_signal_none s _ _ _ _ _ _ _ (fun c hc => (hno c hc).2)]
      exact ⟨_, rfl, rfl, rfl⟩
  · refine ⟨st, ?_, rfl, rfl⟩
    cases s
    simp only at hst
    simp [hst]

theorem foldl_gtk_stack_remove_disconnected (ws : List Nat) :
    ∀ (s : GtkStackSidebarPrivate) (st : GtkStack), s.stack = some st →
      (∀ c ∈ st.handlers,
        c.callback ≠ Callback.on_child_changed ∧ c.callback ≠ Callback.on_stack_child_removed) →
      ∃ st1, ws.foldl gtk_stack_remove s = { s with stack := some st1 } ∧ st1.id = st.id ∧
        st1.handlers = st.handlers := by
  induction ws with
  | nil =>
    intro s st hst _
    refine ⟨st, ?_, rfl, rfl⟩
    cases s
    simp only at hst
    simp [hst]
  | cons w ws ih =>
    intro s st hst hno
    obtain ⟨st1, h1, hid, hh⟩ := gtk_stack_remove_disconnected s st w hst hno
    simp only [List.foldl_cons]
    rw [h1]
    obtain ⟨st2, h2, hid2, hh2⟩ := ih { s with stack := some st1 } st1 rfl (by rw [hh]; exact hno)
    exact ⟨st2, by rw [h2], by rw [hid2, hid], by rw [hh2, hh]⟩

/-! ## Lemmas on `add_child` -/

theorem child_get_attrs (s : GtkStackSidebarPrivate) (w : Option Nat) :
    (gtk_container_child_get s.stack w).map Page.attrs =
      match page_attrs s, w with
      | some l, some w => l.find? (fun p => decide (p.widget = w))
      | _, _ => none := by
  unfold gtk_container_child_get page_attrs
  cases s.stack with
  | none => rfl
  | some st =>
    cases w with
    | none => rfl
    | some w =>
      simp only [Option.map]
      exact (find_map_widget st.children Page.attrs (fun _ => rfl) w).symm

theorem child_get_attrs_congr (s t : GtkStackSidebarPrivate) (h : page_attrs s = page_attrs t)
    (w : Option Nat) :
    (gtk_container_child_get s.stack w).map Page.attrs =
      (gtk_container_child_get t.stack w).map Page.attrs := by
  rw [child_get_attrs, child_get_attrs, h]

theorem pos_congr (s t : GtkStackSidebarPrivate) (h : page_attrs s = page_attrs t)
    (r : Option Row) : pos s r = pos t r := by
  cases r with
  | none => rfl
  | some r =>
    unfold pos
    simp only []
    have hc := child_get_attrs_congr s t h r.stack_child
    have e : ∀ o : Option Page, o.map (fun p => p.position) =
        (o.map Page.attrs).map (fun p => p.position) := by
      intro o
      cases o <;> rfl
    rw [e, e (gtk_container_child_get t.stack r.stack_child), hc]

theorem sort_list_congr (s t : GtkStackSidebarPrivate) (h : page_attrs s = page_attrs t) :
    sort_list s = sort_list t := by
  funext a b
  rw [sort_list_eq, sort_list_eq, pos_congr s t h a, pos_congr s t h b]

theorem update_row_congr (s t : GtkStackSidebarPrivate) (h : page_attrs s = page_attrs t)
    (w : Nat) (row : Row) : update_row s w row = update_row t w row := by
  have hc := child_get_attrs_congr s t h (some w)
  unfold update_row
  cases hs : gtk_container_child_get s.stack (some w) with
  | none =>
    rw [hs] at hc
    cases ht : gtk_container_child_get t.stack (some w) with
    | none => rfl
    | some q => rw [ht] at hc; simp at hc
  | some p =>
    rw [hs] at hc
    cases ht : gtk_container_child_get t.stack (some w) with
    | none => rw [ht] at hc; simp at hc
    | some q =>
      rw [ht] at hc
      simp only [Option.map, Option.some.injEq, Page.attrs, Page.mk.injEq] at hc
      obtain ⟨_, h2, h3, h4, _⟩ := hc
      simp only [h2, h3, h4]

theorem new_row_congr (s t : GtkStackSidebarPrivate) (h : page_attrs s = page_attrs t)
    (w id : Nat) : new_row s w id = new_row t w id := by
  unfold new_row
  rw [update_row_congr s t h]

theorem connect_page_frame (s : GtkStackSidebarPrivate) (w : Nat) (c : Connection) :
    (g_signal_connect_page s w c).rows = s.rows ∧
    (g_signal_connect_page s w c).list = s.list ∧
    (g_signal_connect_page s w c).in_child_changed = s.in_child_changed ∧
    (g_signal_connect_page s w c).next_row = s.next_row ∧
    (g_signal_connect_page s w c).set_visible_child_calls = s.set_visible_child_calls ∧
    page_attrs (g_signal_connect_page s w c) = page_attrs s ∧
    (g_signal_connect_page s w c).stack.map (fun st => (st.id, st.visible_child, st.handlers)) =
      s.stack.map (fun st => (st.id, st.visible_child, st.handlers)) := by
  unfold g_signal_connect_page page_attrs
  cases h : s.stack with
  | none => simp [h]
  | some st =>
    simp only [Option.map, List.map_map, true_and, and_true, Option.some.injEq]
    apply List.map_congr_left
    intro p _
    simp only [Function.comp]
    split <;> rfl

theorem add_child_known (w : Nat) (s : GtkStackSidebarPrivate)
    (h : g_hash_table_lookup s.rows w ≠ none) : add_child w s = s := by
  unfold add_child
  rw [if_pos]
  cases hl : g_hash_table_lookup s.rows w with
  | none => exact absurd hl h
  | some _ => rfl

theorem connect_page_signals_frame (s : GtkStackSidebarPrivate) (w : Nat) :
    (connect_page_signals s w).rows = s.rows ∧
    (connect_page_signals s w).list = s.list ∧
    (connect_page_signals s w).in_child_changed = s.in_child_changed ∧
    (connect_page_signals s w).next_row = s.next_row ∧
    (connect_page_signals s w).set_visible_child_calls = s.set_visible_child_calls ∧
    page_attrs (connect_page_signals s w) = page_attrs s ∧
    (connect_page_signals s w).stack.map (fun st => (st.id, st.visible_child, st.handlers)) =
      s.stack.map (fun st => (st.id, st.visible_child, st.handlers)) := by
  unfold connect_page_signals
  simp only []
  have f1 := connect_page_frame s w ⟨Signal.child_notify_title, Callback.on_child_updated⟩
  have f2 := connect_page_frame (g_signal_connect_page s w
    ⟨Signal.child_notify_title, Callback.on_child_updated⟩) w
    ⟨Signal.child_notify_needs_attention, Callback.on_child_updated⟩
  have f3 := connect_page_frame (g_signal_connect_page (g_signal_connect_page s w
    ⟨Signal.child_notify_title, Callback.on_child_updated⟩) w
    ⟨Signal.child_notify_needs_attention, Callback.on_child_updated⟩) w
    ⟨Signal.notify_visible, Callback.on_child_updated⟩
  have f4 := connect_page_frame (g_signal_connect_page (g_signal_connect_page
    (g_signal_connect_page s w
    ⟨Signal.child_notify_title, Callback.on_child_updated⟩) w
    ⟨Signal.child_notify_needs_attention, Callback.on_child_updated⟩) w
    ⟨Signal.notify_visible, Callback.on_child_updated⟩) w
    ⟨Signal.child_notify_position, Callback.on_position_updated⟩
  refine ⟨?_, ?_, ?_, ?_, ?_, ?_, ?_⟩
  · rw [f4.1, f3.1, f2.1, f1.1]
  · rw [f4.2.1, f3.2.1, f2.2.1, f1.2.1]
  · rw [f4.2.2.1, f3.2.2.1, f2.2.2.1, f1.2.2.1]
  · rw [f4.2.2.2.1, f3.2.2.2.1, f2.2.2.2.1, f1.2.2.2.1]
  · rw [f4.2.2.2.2.1, f3.2.2.2.2.1, f2.2.2.2.2.1, f1.2.2.2.2.1]
  · rw [f4.2.2.2.2.2.1, f3.2.2.2.2.2.1, f2.2.2.2.2.2.1, f1.2.2.2.2.2.1]
  · rw [f4.2.2.2.2.2.2, f3.2.2.2.2.2.2, f2.2.2.2.2.2.2, f1.2.2.2.2.2.2]

theorem add_child_unfold (w : Nat) (s : GtkStackSidebarPrivate)
    (h : g_hash_table_lookup s.rows w = none) :
    add_child w s =
      gtk_list_box_add
        { connect_page_signals { s with next_row := s.next_row + 1 } w with
          rows := g_hash_table_insert
            (connect_page_signals { s with next_row := s.next_row + 1 } w).rows w s.next_row }
        (new_row s w s.next_row) := by
  unfold add_child
  rw [if_neg (by rw [h]; simp)]
  simp only [update_row_id, new_row]
  rfl

theorem add_child_new (w : Nat) (s : GtkStackSidebarPrivate)
    (h : g_hash_table_lookup s.rows w = none) :
    (add_child w s).rows = (w, s.next_row) :: s.rows ∧
    (add_child w s).list.rows = gtk_list_box_update_headers none
      (insert_sorted (sort_list s) (new_row s w s.next_row) s.list.rows) ∧
    (add_child w s).list.selected_row = s.list.selected_row ∧
    (add_child w s).in_child_changed = s.in_child_changed ∧
    (add_child w s).next_row = s.next_row + 1 ∧
    (add_child w s).set_visible_child_calls = s.set_visible_child_calls ∧
    page_attrs (add_child w s) = page_attrs s ∧
    (add_child w s).stack.map (fun st => (st.id, st.visible_child, st.handlers)) =
      s.stack.map (fun st => (st.id, st.visible_child, st.handlers)) := by
  rw [add_child_unfold w s h]
  obtain ⟨t1, t2, t3, t4, t5, t6, t7⟩ :=
    connect_page_signals_frame { s with next_row := s.next_row + 1 } w
  generalize connect_page_signals { s with next_row := s.next_row + 1 } w = T at *
  have hs : sort_list { T with rows := g_hash_table_insert T.rows w s.next_row } = sort_list s :=
    sort_list_congr _ _ t6
  unfold gtk_list_box_add
  simp only [hs]
  refine ⟨?_, ?_, ?_, ?_, ?_, ?_, ?_, ?_⟩
  · rw [t1]
    simp only [g_hash_table_insert]
    rw [remove_of_lookup_none _ _ h]
  · rw [t2]
  · rw [t2]
  · exact t3
  · exact t4
  · exact t5
  · exact t6
  · exact t7

/-! ## The selection cycle leaves map, rows and pages alone -/

theorem Frame.refl (s : GtkStackSidebarPrivate) : Frame s s := ⟨rfl, rfl, rfl⟩

theorem Frame.trans {s t u : GtkStackSidebarPrivate} (h1 : Frame s t) (h2 : Frame t u) :
    Frame s u :=
  ⟨h2.1.trans h1.1, h2.2.1.trans h1.2.1, h2.2.2.trans h1.2.2⟩

theorem Frame.attrs_eq {s t : GtkStackSidebarPrivate} (h : Frame s t) :
    page_attrs t = page_attrs s := by
  have h3 := h.2.2
  unfold GmSidebar.page_attrs
  cases hs : s.stack with
  | none =>
    rw [hs] at h3
    cases ht : t.stack with
    | none => rfl
    | some b => rw [ht] at h3; simp at h3
  | some a =>
    rw [hs] at h3
    cases ht : t.stack with
    | none => rw [ht] at h3; simp at h3
    | some b =>
      rw [ht] at h3
      simp only [Option.map, Option.some.injEq, Prod.mk.injEq] at h3
      simp only [Option.map, h3.2.1]

theorem on_child_changed_result_frame (s : GtkStackSidebarPrivate) :
    Frame s (on_child_changed_result s) := by
  unfold on_child_changed_result
  split
  · split <;> exact ⟨rfl, rfl, rfl⟩
  · exact Frame.refl s

theorem foldl_frame {β : Type} (f : GtkStackSidebarPrivate → GtkStackSidebarPrivate)
    (hf : ∀ s, Frame s (f s)) (l : List β) :
    ∀ s, Frame s (l.foldl (fun s _ => f s) s) := by
  induction l with
  | nil => intro s; exact Frame.refl s
  | cons a l ih =>
    intro s
    exact Frame.trans (hf s) (ih (f s))

theorem notify_result_frame (s : GtkStackSidebarPrivate) : Frame s (notify_result s) := by
  unfold notify_result
  split
  · exact Frame.refl s
  · exact foldl_frame _ on_child_changed_result_frame _ s

theorem set_visible_child_result_frame (s : GtkStackSidebarPrivate) (w : Option Nat) :
    Frame s (set_visible_child_result s w) := by
  unfold set_visible_child_result
  simp only []
  split
  · rename_i st w hst
    split
    · exact ⟨rfl, rfl, rfl⟩
    · split
      · split
        · exact ⟨rfl, rfl, rfl⟩
        · refine Frame.trans ?_ (notify_result_frame _)
          refine ⟨rfl, rfl, ?_⟩
          simp [hst]
      · exact ⟨rfl, rfl, rfl⟩
  · exact ⟨rfl, rfl, rfl⟩

theorem row_selected_result_frame (s : GtkStackSidebarPrivate) (row : Option Row) :
    Frame s (row_selected_result s row) := by
  unfold row_selected_result
  split
  · exact Frame.refl s
  · split
    · exact Frame.refl s
    · exact set_visible_child_result_frame s _

theorem select_row_result_frame (s : GtkStackSidebarPrivate) (row : Option Nat) :
    Frame s (select_row_result s row) := by
  unfold select_row_result
  split
  · split
    · exact Frame.refl s
    · split
      · exact Frame.refl s
      · exact Frame.trans ⟨rfl, rfl, rfl⟩ (row_selected_result_frame _ _)
  · split
    · exact Frame.trans ⟨rfl, rfl, rfl⟩ (row_selected_result_frame _ _)
    · exact Frame.refl s

theorem dispatch_frame (c : Call) (s : GtkStackSidebarPrivate) : Frame s (dispatch c s) := by
  rw [dispatch_eq]
  cases c with
  | row_selected row => exact row_selected_result_frame s row
  | set_visible_child w => exact set_visible_child_result_frame s w
  | notify_visible_child => exact notify_result_frame s
  | on_child_changed => exact on_child_changed_result_frame s
  | select_row r => exact select_row_result_frame s r

/-! ## Lemmas on `populate_stack_sidebar` -/

theorem PopInv_congr (done : List Nat) (s t : GtkStackSidebarPrivate)
    (h1 : t.rows = s.rows) (h2 : t.list.rows = s.list.rows) (h3 : page_attrs t = page_attrs s)
    (h : PopInv done s) : PopInv done t := by
  obtain ⟨i1, i2, i3, i4, i5⟩ := h
  refine ⟨?_, ?_, ?_, ?_, ?_⟩
  · rw [h1]; exact i1
  · rw [h1]; exact i2
  · rw [h1, h2]; exact i3
  · rw [h2]
    have : (fun r => pos t (some r)) = (fun r => pos s (some r)) := by
      funext r
      exact pos_congr t s h3 (some r)
    rw [this]
    exact i4
  · intro r hr
    rw [h2] at hr
    obtain ⟨w, hw, hc⟩ := i5 r hr
    exact ⟨w, hw, by rw [new_row_congr t s h3]; exact hc⟩

theorem new_row_fields (s : GtkStackSidebarPrivate) (w id : Nat) :
    (new_row s w id).id = id ∧ (new_row s w id).stack_child = some w := by
  unfold new_row
  exact ⟨by simp only [update_row_id]; rfl, rfl⟩

theorem add_child_pop (done : List Nat) (w : Nat) (s : GtkStackSidebarPrivate)
    (hI : PopInv done s) :
    PopInv (done ++ [w]) (add_child w s) ∧ page_attrs (add_child w s) = page_attrs s ∧
    (add_child w s).stack.map (fun st => (st.id, st.visible_child, st.handlers)) =
      s.stack.map (fun st => (st.id, st.visible_child, st.handlers)) ∧
    (add_child w s).list.selected_row = s.list.selected_row ∧
    (add_child w s).in_child_changed = s.in_child_changed := by
  obtain ⟨i1, i2, i3, i4, i5⟩ := hI
  cases hl : g_hash_table_lookup s.rows w with
  | some v =>
    rw [add_child_known w s (by rw [hl]; simp)]
    refine ⟨⟨i1, ?_, i3, i4, i5⟩, rfl, rfl, rfl, rfl⟩
    intro x
    have hw : w ∈ s.rows.map Prod.fst :=
      List.mem_map.mpr ⟨(w, v), lookup_some_mem _ _ _ hl, rfl⟩
    rw [i2, List.mem_append, List.mem_singleton]
    constructor
    · intro h; exact Or.inl h
    · intro h
      rcases h with h | h
      · exact h
      · rw [h]; exact (i2 w).mp hw
  | none =>
    obtain ⟨a1, a2, a3, a4, _, _, a7, a8⟩ := add_child_new w s hl
    have hnk : w ∉ s.rows.map Prod.fst := by
      intro hm
      obtain ⟨e, he, hew⟩ := List.mem_map.mp hm
      exact (lookup_none_iff _ _).mp hl e he hew
    have hperm := insert_sorted_perm (sort_list s) (new_row s w s.next_row) s.list.rows
    have hcore : (add_child w s).list.rows.map Row.core =
        (insert_sorted (sort_list s) (new_row s w s.next_row) s.list.rows).map Row.core := by
      rw [a2]
      exact update_headers_map_core _ none
    refine ⟨⟨?_, ?_, ?_, ?_, ?_⟩, a7, a8, a3, a4⟩
    · rw [a1]
      simp only [List.map_cons, List.nodup_cons]
      exact ⟨hnk, i1⟩
    · intro x
      rw [a1]
      simp only [List.map_cons, List.mem_cons, List.mem_append, List.not_mem_nil, or_false]
      rw [i2]
      exact or_comm
    · rw [a1, map_core_eq_imp hcore (fun r => (r.stack_child, r.id)) (fun _ => rfl)]
      simp only [List.map_cons]
      have h1 := hperm.map (fun r => (r.stack_child, r.id))
      simp only [List.map_cons, (new_row_fields s w s.next_row).1,
        (new_row_fields s w s.next_row).2] at h1
      exact h1.trans (List.Perm.cons _ i3)
    · have e1 : (fun r => pos (add_child w s) (some r)) = (fun r => pos s (some r)) := by
        funext r
        exact pos_congr _ _ a7 (some r)
      rw [e1, map_core_eq_imp hcore (fun r => pos s (some r)) (pos_core s), List.pairwise_map]
      apply insert_sorted_pairwise
      rw [← List.pairwise_map (f := fun r => pos s (some r)) (R := fun a b => a ≤ b)]
      exact i4
    · intro r hr
      have hrc : r.core ∈ (add_child w s).list.rows.map Row.core := List.mem_map_of_mem _ hr
      rw [hcore] at hrc
      obtain ⟨y, hy, hyr⟩ := List.mem_map.mp hrc
      have hsc : r.stack_child = y.stack_child := (congrArg Row.stack_child hyr).symm
      have hid : r.id = y.id := (congrArg Row.id hyr).symm
      rcases List.mem_cons.mp (hperm.mem_iff.mp hy) with hy1 | hy1
      · subst hy1
        refine ⟨w, by rw [hsc]; exact (new_row_fields s w s.next_row).2, ?_⟩
        rw [new_row_congr _ _ a7, hid, (new_row_fields s w s.next_row).1]
        exact hyr.symm
      · obtain ⟨w1, hw1, hc1⟩ := i5 y hy1
        refine ⟨w1, by rw [hsc]; exact hw1, ?_⟩
        rw [new_row_congr _ _ a7, hid, ← hc1]
        exact hyr.symm

theorem foldl_add_child_pop (ws : List Nat) :
    ∀ (done : List Nat) (s : GtkStackSidebarPrivate), PopInv done s →
      PopInv (done ++ ws) (ws.foldl (fun s w => add_child w s) s) ∧
      page_attrs (ws.foldl (fun s w => add_child w s) s) = page_attrs s ∧
      (ws.foldl (fun s w => add_child w s) s).stack.map
          (fun st => (st.id, st.visible_child, st.handlers)) =
        s.stack.map (fun st => (st.id, st.visible_child, st.handlers)) ∧
      (ws.foldl (fun s w => add_child w s) s).list.selected_row = s.list.selected_row ∧
      (ws.foldl (fun s w => add_child w s) s).in_child_changed = s.in_child_changed := by
  induction ws with
  | nil =>
    intro done s h
    rw [List.append_nil]
    exact ⟨h, rfl, rfl, rfl, rfl⟩
  | cons w ws ih =>
    intro done s h
    obtain ⟨b1, b2, b3, b4, b5⟩ := add_child_pop done w s h
    obtain ⟨c1, c2, c3, c4, c5⟩ := ih (done ++ [w]) (add_child w s) b1
    simp only [List.foldl_cons]
    refine ⟨?_, c2.trans b2, c3.trans b3, c4.trans b4, c5.trans b5⟩
    have : done ++ w :: ws = done ++ [w] ++ ws := by simp
    rw [this]
    exact c1

theorem PopInv_empty (s : GtkStackSidebarPrivate) (h1 : s.rows = []) (h2 : s.list.rows = []) :
    PopInv [] s := by
  unfold PopInv
  rw [h1, h2]
  simp

theorem attrs_eq_fields {q p : Page} (h : q.attrs = p.attrs) :
    q.widget = p.widget ∧ q.title = p.title ∧ q.needs_attention = p.needs_attention ∧
    q.visible = p.visible ∧ q.position = p.position := by
  simp only [Page.attrs, Page.mk.injEq] at h
  exact ⟨h.1, h.2.1, h.2.2.1, h.2.2.2.1, h.2.2.2.2.1⟩

theorem core_eq_fields {a b : Row} (h : a.core = b.core) :
    a.id = b.id ∧ a.stack_child = b.stack_child ∧ a.label = b.label ∧ a.visible = b.visible ∧
    a.needs_attention = b.needs_attention ∧ a.item_class = b.item_class := by
  simp only [Row.core, Row.mk.injEq] at h
  exact ⟨h.1, h.2.1, h.2.2.1, h.2.2.2.1, h.2.2.2.2.1, h.2.2.2.2.2.1⟩

theorem populate_frame (s : GtkStackSidebarPrivate) :
    Frame (gtk_container_foreach s add_child) (populate_stack_sidebar s) := by
  unfold populate_stack_sidebar
  simp only []
  split
  · exact dispatch_frame _ _
  · exact Frame.refl _

theorem attach_spec (s1 : GtkStackSidebarPrivate) (D : GtkStack) (h1 : s1.rows = [])
    (h2 : s1.list.rows = []) :
    PopInv (D.children.map (fun p => p.widget))
      (connect_stack_signals (populate_stack_sidebar { s1 with stack := some D })) ∧
    page_attrs (connect_stack_signals (populate_stack_sidebar { s1 with stack := some D })) =
      some (D.children.map Page.attrs) ∧
    ∃ st, (connect_stack_signals (populate_stack_sidebar { s1 with stack := some D })).stack =
        some st ∧ st.id = D.id ∧
      st.handlers = D.handlers ++
        [⟨Signal.add, Callback.on_stack_child_added⟩,
         ⟨Signal.remove, Callback.on_stack_child_removed⟩,
         ⟨Signal.notify_visible_child, Callback.on_child_changed⟩,
         ⟨Signal.destroy, Callback.disconnect_stack_signals⟩] := by
  have hf := foldl_add_child_pop (D.children.map (fun p => p.widget)) []
    { s1 with stack := some D } (PopInv_empty _ h1 h2)
  simp only [List.nil_append] at hf
  obtain ⟨p1, p2, p3, _, _⟩ := hf
  have hu : gtk_container_foreach { s1 with stack := some D } add_child =
      (D.children.map (fun p => p.widget)).foldl (fun s w => add_child w s)
        { s1 with stack := some D } := rfl
  have hfr := populate_frame { s1 with stack := some D }
  rw [hu] at hfr
  generalize (D.children.map (fun p => p.widget)).foldl (fun s w => add_child w s)
    { s1 with stack := some D } = u at *
  generalize populate_stack_sidebar { s1 with stack := some D } = v at *
  have hva : page_attrs v = page_attrs u := hfr.attrs_eq
  have hvp : PopInv (D.children.map (fun p => p.widget)) v :=
    PopInv_congr _ u v hfr.1 hfr.2.1 hva p1
  obtain ⟨stu, hstu, hstu2⟩ := Option.map_eq_some'.mp p3
  have hv3 := hfr.2.2
  rw [hstu] at hv3
  obtain ⟨stv, hstv, hstv2⟩ := Option.map_eq_some'.mp hv3
  simp only [Prod.mk.injEq] at hstu2 hstv2
  have hc : connect_stack_signals v = { v with stack := some { stv with handlers := stv.handlers ++
      [⟨Signal.add, Callback.on_stack_child_added⟩,
       ⟨Signal.remove, Callback.on_stack_child_removed⟩,
       ⟨Signal.notify_visible_child, Callback.on_child_changed⟩,
       ⟨Signal.destroy, Callback.disconnect_stack_signals⟩] } } := by
    unfold connect_stack_signals
    rw [hstv]
  have hca : page_attrs (connect_stack_signals v) = page_attrs v := by
    rw [hc]
    unfold page_attrs
    rw [hstv]
    rfl
  refine ⟨?_, ?_, ?_⟩
  · exact PopInv_congr _ v _ (by rw [hc]) (by rw [hc]) hca hvp
  · rw [hca, hva, p2]
    rfl
  · refine ⟨_, by rw [hc], ?_, ?_⟩
    · simp only []
      rw [hstv2.1, hstu2.1]
    · simp only []
      rw [hstv2.2.2, hstu2.2.2]

theorem find_of_nodup (l : List Page) (hnd : (l.map (fun p => p.widget)).Nodup) (p : Page)
    (hp : p ∈ l) : l.find? (fun q => decide (q.widget = p.widget)) = some p := by
  induction l with
  | nil => simp at hp
  | cons a l ih =>
    simp only [List.map_cons, List.nodup_cons] at hnd
    rcases List.mem_cons.mp hp with h | h
    · subst h
      simp
    · have hne : a.widget ≠ p.widget := by
        intro e
        apply hnd.1
        rw [e]
        exact List.mem_map_of_mem _ h
      simp only [List.find?_cons, hne, decide_False]
      exact ih hnd.2 h

theorem child_get_of_mem (s : GtkStackSidebarPrivate) (D : GtkStack)
    (ha : page_attrs s = some (D.children.map Page.attrs))
    (hnd : (D.children.map (fun p => p.widget)).Nodup) (p : Page) (hp : p ∈ D.children) :
    ∃ q, gtk_container_child_get s.stack (some p.widget) = some q ∧ q.attrs = p.attrs := by
  have h := child_get_attrs s (some p.widget)
  rw [ha] at h
  simp only [] at h
  rw [find_map_widget D.children Page.attrs (fun _ => rfl), find_of_nodup _ hnd p hp] at h
  obtain ⟨q, hq, hq2⟩ := Option.map_eq_some'.mp h
  exact ⟨q, hq, hq2⟩

theorem update_row_fields (s : GtkStackSidebarPrivate) (w : Nat) (q : Page) (row : Row)
    (h : gtk_container_child_get s.stack (some w) = some q) :
    (update_row s w row).visible = (q.visible && q.title.isSome) ∧
    (update_row s w row).label = q.title.getD "" ∧
    (update_row s w row).needs_attention = q.needs_attention := by
  unfold update_row
  rw [h]
  simp only []
  cases hq : q.needs_attention <;> simp

theorem pos_of_child (s : GtkStackSidebarPrivate) (r : Row) (w : Nat) (q : Page)
    (hr : r.stack_child = some w)
    (h : gtk_container_child_get s.stack (some w) = some q) :
    pos s (some r) = q.position := by
  unfold pos
  simp only [hr, h]
  rfl

/-! ## The invariant of an attached sidebar -/

theorem widgets_of_page_attrs (s t : GtkStackSidebarPrivate) (h : page_attrs t = page_attrs s) :
    widgets t = widgets s := by
  have e : ∀ u : GtkStackSidebarPrivate,
      widgets u = ((page_attrs u).map (fun l => l.map (fun p => p.widget))).getD [] := by
    intro u
    unfold widgets page_attrs
    cases u.stack with
    | none => rfl
    | some st =>
      simp only [Option.map, Option.getD, List.map_map]
      apply List.map_congr_left
      intro p _
      rfl
  rw [e t, e s, h]

theorem proj_of_triple (s t : GtkStackSidebarPrivate)
    (h : t.stack.map (fun st => (st.id, st.visible_child, st.handlers)) =
      s.stack.map (fun st => (st.id, st.visible_child, st.handlers))) :
    gtk_stack_sidebar_get_stack t = gtk_stack_sidebar_get_stack s ∧
    stack_handlers t = stack_handlers s := by
  unfold gtk_stack_sidebar_get_stack stack_handlers
  cases hs : s.stack <;> cases ht : t.stack <;> rw [hs, ht] at h <;> simp at h ⊢
  exact ⟨h.1, h.2.2⟩

theorem Frame.proj {s t : GtkStackSidebarPrivate} (h : Frame s t) :
    gtk_stack_sidebar_get_stack t = gtk_stack_sidebar_get_stack s ∧
    stack_handlers t = stack_handlers s ∧ widgets t = widgets s := by
  refine ⟨?_, ?_, widgets_of_page_attrs s t h.attrs_eq⟩
  · have h3 := h.2.2
    unfold gtk_stack_sidebar_get_stack
    cases hs : s.stack <;> cases ht : t.stack <;> rw [hs, ht] at h3 <;> simp at h3 ⊢
    exact h3.1
  · have h3 := h.2.2
    unfold stack_handlers
    cases hs : s.stack <;> cases ht : t.stack <;> rw [hs, ht] at h3 <;> simp at h3 ⊢
    exact h3.2.2

theorem Inv_congr (cid : Nat) (extra : List Nat) (s t : GtkStackSidebarPrivate)
    (h1 : t.rows = s.rows)
    (h2 : ∀ r ∈ t.list.rows, ∃ r0 ∈ s.list.rows, r0.id = r.id)
    (h3 : gtk_stack_sidebar_get_stack t = gtk_stack_sidebar_get_stack s)
    (h4 : stack_handlers t = stack_handlers s) (h5 : widgets t = widgets s)
    (h : Inv cid extra s) : Inv cid extra t := by
  obtain ⟨i1, i2, i3, i4⟩ := h
  refine ⟨by rw [h3]; exact i1, by rw [h4]; exact i2, ?_, ?_⟩
  · intro e he
    rw [h1] at he
    rw [h5]
    exact i3 e he
  · intro r hr
    obtain ⟨r0, hr0, hid⟩ := h2 r hr
    obtain ⟨w, hw⟩ := i4 r0 hr0
    exact ⟨w, by rw [h1, ← hid]; exact hw⟩

theorem Inv_frame (cid : Nat) (extra : List Nat) (s t : GtkStackSidebarPrivate) (hf : Frame s t)
    (h : Inv cid extra s) : Inv cid extra t :=
  Inv_congr cid extra s t hf.1 (fun r hr => ⟨r, by rw [← hf.2.1]; exact hr, rfl⟩)
    hf.proj.1 hf.proj.2.1 hf.proj.2.2 h

theorem update_visible_child_frame (s : GtkStackSidebarPrivate) (child : Option Nat) :
    Frame s (gtk_stack_update_visible_child s child) := by
  unfold gtk_stack_update_visible_child
  split
  · exact Frame.refl s
  · rename_i st hst
    simp only []
    split
    · exact Frame.refl s
    · refine Frame.trans ?_ (dispatch_frame _ _)
      refine ⟨rfl, rfl, ?_⟩
      simp [hst]

theorem headers_ids (l : List Row) (b : Option Row) :
    (gtk_list_box_update_headers b l).map (fun r => r.id) = l.map (fun r => r.id) :=
  map_core_eq_imp (update_headers_map_core l b) (fun r => r.id) (fun _ => rfl)

theorem mem_ids {l1 l2 : List Row} (h : ∀ i, i ∈ l1.map (fun r => r.id) → i ∈ l2.map (fun r => r.id))
    (r : Row) (hr : r ∈ l1) : ∃ r0 ∈ l2, r0.id = r.id := by
  obtain ⟨r0, hr0, e⟩ := List.mem_map.mp (h r.id (List.mem_map_of_mem (fun r => r.id) hr))
  exact ⟨r0, hr0, e⟩

theorem on_child_updated_inv (cid : Nat) (extra : List Nat) (w : Nat)
    (s : GtkStackSidebarPrivate) (h : Inv cid extra s) : Inv cid extra (on_child_updated w s) := by
  unfold on_child_updated
  split
  · exact h
  · rename_i r _
    refine Inv_congr cid extra s _ rfl ?_ rfl rfl rfl h
    apply mem_ids
    intro i hi
    simp only [headers_ids, List.map_map] at hi
    obtain ⟨x, hx, hxi⟩ := List.mem_map.mp hi
    refine List.mem_map.mpr ⟨x, hx, ?_⟩
    rw [← hxi]
    simp only [Function.comp]
    split
    · exact (update_row_id s w x).symm
    · rfl

theorem on_position_updated_inv (cid : Nat) (extra : List Nat) (s : GtkStackSidebarPrivate)
    (h : Inv cid extra s) : Inv cid extra (on_position_updated s) := by
  unfold on_position_updated gtk_list_box_invalidate_sort
  refine Inv_congr cid extra s _ rfl ?_ rfl rfl rfl h
  apply mem_ids
  intro i hi
  simp only [headers_ids] at hi
  have hp := ((sort_rows_spec s s.list.rows [] List.Pairwise.nil).2).map (fun r => r.id)
  simp only [List.append_nil] at hp
  exact hp.mem_iff.mp hi

theorem emit_page_signal_inv (P : GtkStackSidebarPrivate → Prop) (s : GtkStackSidebarPrivate)
    (w : Nat) (sig : Signal) (cb : Callback)
    (handler : GtkStackSidebarPrivate → GtkStackSidebarPrivate)
    (hP : ∀ s, P s → P (handler s)) (h : P s) : P (emit_page_signal s w sig cb handler) := by
  unfold emit_page_signal
  split
  · exact h
  · rename_i p hp
    clear hp
    generalize p.handlers.filter (fun c => decide (c = ⟨sig, cb⟩)) = l
    induction l generalizing s with
    | nil => exact h
    | cons a l ih => exact ih (handler s) (hP s h)

theorem emit_stack_signal_inv (P : GtkStackSidebarPrivate → Prop) (s : GtkStackSidebarPrivate)
    (sig : Signal) (cb : Callback)
    (handler : GtkStackSidebarPrivate → GtkStackSidebarPrivate)
    (hP : ∀ s, P s → P (handler s)) (h : P s) : P (emit_stack_signal s sig cb handler) := by
  unfold emit_stack_signal
  split
  · exact h
  · rename_i st hst
    clear hst
    generalize st.handlers.filter (fun c => decide (c = ⟨sig, cb⟩)) = l
    induction l generalizing s with
    | nil => exact h
    | cons a l ih => exact ih (handler s) (hP s h)

theorem emit_stack_signal_connected (P Q : GtkStackSidebarPrivate → Prop)
    (s : GtkStackSidebarPrivate) (sig : Signal) (cb : Callback)
    (handler : GtkStackSidebarPrivate → GtkStackSidebarPrivate)
    (hc : ⟨sig, cb⟩ ∈ stack_handlers s)
    (hPQ : ∀ s, P s → Q (handler s)) (hQ : ∀ s, Q s → Q (handler s)) (h : P s) :
    Q (emit_stack_signal s sig cb handler) := by
  unfold emit_stack_signal
  unfold stack_handlers at hc
  cases hst : s.stack with
  | none => rw [hst] at hc; simp at hc
  | some st =>
    rw [hst] at hc
    simp only [Option.map, Option.getD] at hc
    simp only []
    have hm : (⟨sig, cb⟩ : Connection) ∈ st.handlers.filter (fun c => decide (c = ⟨sig, cb⟩)) := by
      rw [List.mem_filter]
      exact ⟨hc, by simp⟩
    generalize st.handlers.filter (fun c => decide (c = ⟨sig, cb⟩)) = l at hm
    cases l with
    | nil => exact absurd hm (List.not_mem_nil _)
    | cons a l =>
      simp only [List.foldl_cons]
      have hq : Q (handler s) := hPQ s h
      generalize handler s = t at hq
      clear hm
      induction l generalizing t with
      | nil => exact hq
      | cons b l ih => exact ih (handler t) (hQ t hq)

theorem lookup_cons_ne (t : List (Nat × Nat)) (k v w : Nat) (h : k ≠ w) :
    g_hash_table_lookup ((k, v) :: t) w = g_hash_table_lookup t w := by
  show (if k = w then some v else g_hash_table_lookup t w) = _
  rw [if_neg h]

theorem lookup_cons_self (t : List (Nat × Nat)) (k v : Nat) :
    g_hash_table_lookup ((k, v) :: t) k = some v := by
  show (if k = k then some v else g_hash_table_lookup t k) = _
  rw [if_pos rfl]

theorem add_child_widgets (w : Nat) (s : GtkStackSidebarPrivate) :
    widgets (add_child w s) = widgets s := by
  cases hl : g_hash_table_lookup s.rows w with
  | some v => rw [add_child_known w s (by rw [hl]; simp)]
  | none => exact widgets_of_page_attrs _ _ (add_child_new w s hl).2.2.2.2.2.2.1

theorem add_child_inv (cid : Nat) (w : Nat) (s : GtkStackSidebarPrivate)
    (h : Inv cid [] s) (hw : w ∈ widgets s) : Inv cid [] (add_child w s) := by
  cases hl : g_hash_table_lookup s.rows w with
  | some v => rw [add_child_known w s (by rw [hl]; simp)]; exact h
  | none =>
    obtain ⟨a1, a2, _, _, _, _, a7, a8⟩ := add_child_new w s hl
    obtain ⟨i1, i2, i3, i4⟩ := h
    have hwid := widgets_of_page_attrs _ _ a7
    refine ⟨by rw [(proj_of_triple _ _ a8).1]; exact i1,
      by rw [(proj_of_triple _ _ a8).2]; exact i2, ?_, ?_⟩
    · intro e he
      rw [a1] at he
      rw [hwid]
      rcases List.mem_cons.mp he with he1 | he1
      · left; rw [he1]; exact hw
      · exact i3 e he1
    · intro r hr
      rw [a2] at hr
      have hid : r.id ∈ (new_row s w s.next_row :: s.list.rows).map (fun r => r.id) := by
        have h1 : r.id ∈ (gtk_list_box_update_headers none (insert_sorted (sort_list s)
            (new_row s w s.next_row) s.list.rows)).map (fun r => r.id) :=
          List.mem_map_of_mem (fun r => r.id) hr
        rw [headers_ids] at h1
        exact ((insert_sorted_perm _ _ _).map (fun r => r.id)).mem_iff.mp h1
      rw [a1]
      simp only [List.map_cons, List.mem_cons, (new_row_fields s w s.next_row).1] at hid
      rcases hid with hid | hid
      · exact ⟨w, by rw [hid]; exact lookup_cons_self _ _ _⟩
      · obtain ⟨r0, hr0, e0⟩ := List.mem_map.mp hid
        obtain ⟨w1, hw1⟩ := i4 r0 hr0
        have hne : w ≠ w1 := by
          intro e
          rw [← e, hl] at hw1
          simp at hw1
        exact ⟨w1, by rw [lookup_cons_ne _ _ _ _ hne, hw1, e0]⟩

theorem disconnect_page_frame (s : GtkStackSidebarPrivate) (w : Nat) (f : Callback) :
    page_attrs (g_signal_handlers_disconnect_page s w f) = page_attrs s ∧
    (g_signal_handlers_disconnect_page s w f).stack.map
        (fun st => (st.id, st.visible_child, st.handlers)) =
      s.stack.map (fun st => (st.id, st.visible_child, st.handlers)) := by
  unfold g_signal_handlers_disconnect_page page_attrs
  cases h : s.stack with
  | none => simp [h]
  | some st =>
    simp only [Option.map, List.map_map, Option.some.injEq, and_true]
    apply List.map_congr_left
    intro p _
    simp only [Function.comp]
    split <;> rfl

theorem remove_child_facts (w : Nat) (s : GtkStackSidebarPrivate) :
    (∀ r ∈ (remove_child w s).list.rows, ∃ r0 ∈ s.list.rows, r0.id = r.id ∧
      g_hash_table_lookup s.rows w ≠ some r.id) ∧
    page_attrs (remove_child w s) = page_attrs s ∧
    (remove_child w s).stack.map (fun st => (st.id, st.visible_child, st.handlers)) =
      s.stack.map (fun st => (st.id, st.visible_child, st.handlers)) := by
  unfold remove_child
  cases hl : g_hash_table_lookup s.rows w with
  | none =>
    refine ⟨?_, rfl, rfl⟩
    intro r hr
    exact ⟨r, hr, rfl, by simp⟩
  | some row =>
    simp only [gtk_list_box_remove_eq]
    have d1 := disconnect_page_frame s w Callback.on_child_updated
    have d2 := disconnect_page_frame (g_signal_handlers_disconnect_page s w
      Callback.on_child_updated) w Callback.on_position_updated
    have l1 := (disconnect_page_rows s w Callback.on_child_updated).2
    have l2 := (disconnect_page_rows (g_signal_handlers_disconnect_page s w
      Callback.on_child_updated) w Callback.on_position_updated).2
    refine ⟨?_, ?_, ?_⟩
    · intro r hr
      simp only [l2, l1] at hr
      have h1 : r.id ∈ (gtk_list_box_update_headers none
          (s.list.rows.filter (fun x => decide (x.id ≠ row)))).map (fun r => r.id) :=
        List.mem_map_of_mem (fun r => r.id) hr
      rw [headers_ids] at h1
      obtain ⟨r0, hr0, e0⟩ := List.mem_map.mp h1
      have hf := List.mem_filter.mp hr0
      refine ⟨r0, hf.1, e0, ?_⟩
      intro e
      have hne : r0.id ≠ row := by simpa using hf.2
      apply hne
      rw [e0]
      exact (Option.some.inj e).symm
    · exact d2.1.trans d1.1
    · exact d2.2.trans d1.2

theorem remove_child_list_in_map (w : Nat) (s : GtkStackSidebarPrivate) (h : ListInMap s) :
    ListInMap (remove_child w s) := by
  intro r hr
  obtain ⟨r0, hr0, e0, hne⟩ := (remove_child_facts w s).1 r hr
  obtain ⟨w1, hw1⟩ := h r0 hr0
  rw [e0] at hw1
  have hw : w1 ≠ w := by
    intro e
    rw [e] at hw1
    exact hne hw1
  exact ⟨w1, by rw [remove_child_rows, lookup_remove_ne _ _ _ hw]; exact hw1⟩

theorem remove_child_inv (cid : Nat) (w : Nat) (s : GtkStackSidebarPrivate)
    (h : Inv cid [w] s) : Inv cid [] (remove_child w s) := by
  obtain ⟨i1, i2, i3, i4⟩ := h
  obtain ⟨_, f2, f3⟩ := remove_child_facts w s
  refine ⟨by rw [(proj_of_triple _ _ f3).1]; exact i1,
    by rw [(proj_of_triple _ _ f3).2]; exact i2, ?_, remove_child_list_in_map w s i4⟩
  intro e he
  rw [remove_child_rows] at he
  unfold g_hash_table_remove at he
  have hf := List.mem_filter.mp he
  have hne : e.1 ≠ w := by simpa using hf.2
  rw [widgets_of_page_attrs _ _ f2]
  rcases i3 e hf.1 with h1 | h1
  · exact Or.inl h1
  · exact absurd (List.mem_singleton.mp h1) hne

theorem Inv_weaken (cid : Nat) (extra : List Nat) (s : GtkStackSidebarPrivate)
    (h : Inv cid [] s) : Inv cid extra s := by
  obtain ⟨i1, i2, i3, i4⟩ := h
  refine ⟨i1, i2, ?_, i4⟩
  intro e he
  rcases i3 e he with h1 | h1
  · exact Or.inl h1
  · exact absurd h1 (List.not_mem_nil _)

theorem set_page_inv (cid : Nat) (w : Nat) (f : Page → Page) (hf : ∀ p, (f p).widget = p.widget)
    (s : GtkStackSidebarPrivate) (h : Inv cid [] s) : Inv cid [] (set_page s w f) := by
  have hs : (set_page s w f).rows = s.rows ∧ (set_page s w f).list = s.list ∧
      gtk_stack_sidebar_get_stack (set_page s w f) = gtk_stack_sidebar_get_stack s ∧
      stack_handlers (set_page s w f) = stack_handlers s ∧
      widgets (set_page s w f) = widgets s := by
    unfold set_page gtk_stack_sidebar_get_stack stack_handlers widgets
    cases hst : s.stack with
    | none => simp [hst]
    | some st =>
      simp only [Option.map, Option.getD, List.map_map, true_and]
      apply List.map_congr_left
      intro p _
      simp only [Function.comp]
      split
      · exact hf p
      · rfl
  exact Inv_congr cid [] s _ hs.1 (fun r hr => ⟨r, by rw [← hs.2.1]; exact hr, rfl⟩)
    hs.2.2.1 hs.2.2.2.1 hs.2.2.2.2 h

theorem gtk_stack_add_inv (cid : Nat) (page : Page) (s : GtkStackSidebarPrivate)
    (h : Inv cid [] s) : Inv cid [] (gtk_stack_add s page) := by
  unfold gtk_stack_add
  cases hst : s.stack with
  | none => exact h
  | some st =>
    simp only []
    split
    · exact h
    · have h1 : Inv cid [] { s with stack := some { st with children := st.children ++ [page] } } ∧
          page.widget ∈
            widgets { s with stack := some { st with children := st.children ++ [page] } } := by
        obtain ⟨i1, i2, i3, i4⟩ := h
        unfold gtk_stack_sidebar_get_stack at i1
        unfold stack_handlers at i2
        unfold widgets at i3
        rw [hst] at i1 i2 i3
        refine ⟨⟨i1, i2, ?_, i4⟩, ?_⟩
        · intro e he
          rcases i3 e he with h2 | h2
          · left
            simp only [widgets, Option.map, Option.getD, List.map_append, List.mem_append]
            exact Or.inl h2
          · exact absurd h2 (List.not_mem_nil _)
        · simp [widgets]
      have h2 : Inv cid [] (if (st.visible_child.isNone && page.visible) = true then
            gtk_stack_update_visible_child
              { s with stack := some { st with children := st.children ++ [page] } }
              (some page.widget)
          else { s with stack := some { st with children := st.children ++ [page] } }) ∧
          page.widget ∈ widgets (if (st.visible_child.isNone && page.visible) = true then
            gtk_stack_update_visible_child
              { s with stack := some { st with children := st.children ++ [page] } }
              (some page.widget)
          else { s with stack := some { st with children := st.children ++ [page] } }) := by
        split
        · have hf := update_visible_child_frame
            { s with stack := some { st with children := st.children ++ [page] } }
            (some page.widget)
          exact ⟨Inv_frame cid [] _ _ hf h1.1, by rw [hf.proj.2.2]; exact h1.2⟩
        · exact h1
      exact (emit_stack_signal_inv (fun u => Inv cid [] u ∧ page.widget ∈ widgets u) _ _ _ _
        (fun u hu => ⟨add_child_inv cid page.widget u hu.1 hu.2,
          by
            show page.widget ∈ widgets (add_child page.widget u)
            rw [add_child_widgets]
            exact hu.2⟩) h2).1

theorem gtk_stack_remove_inv (cid : Nat) (w : Nat) (s : GtkStackSidebarPrivate)
    (h : Inv cid [] s) : Inv cid [] (gtk_stack_remove s w) := by
  unfold gtk_stack_remove
  cases hst : s.stack with
  | none => exact h
  | some st =>
    simp only []
    split
    · have h1 : Inv cid [w] { s with stack := some { st with
          children := st.children.filter (fun p => decide (p.widget ≠ w)) } } := by
        obtain ⟨i1, i2, i3, i4⟩ := h
        unfold gtk_stack_sidebar_get_stack at i1
        unfold stack_handlers at i2
        unfold widgets at i3
        rw [hst] at i1 i2 i3
        refine ⟨i1, i2, ?_, i4⟩
        intro e he
        rcases i3 e he with h2 | h2
        · simp only [Option.map, Option.getD, List.mem_map] at h2
          obtain ⟨p, hp, hpe⟩ := h2
          by_cases hew : e.1 = w
          · right; rw [hew]; exact List.mem_singleton_self w
          · left
            simp only [widgets, Option.map, Option.getD, List.mem_map]
            refine ⟨p, List.mem_filter.mpr ⟨hp, ?_⟩, hpe⟩
            rw [← hpe] at hew
            simpa using hew
        · exact absurd h2 (List.not_mem_nil _)
      have h2 : Inv cid [w] (if st.visible_child = some w then
            gtk_stack_update_visible_child { s with stack := some { st with
              children := st.children.filter (fun p => decide (p.widget ≠ w)) } } none
          else { s with stack := some { st with
              children := st.children.filter (fun p => decide (p.widget ≠ w)) } }) := by
        split
        · exact Inv_frame cid [w] _ _ (update_visible_child_frame _ _) h1
        · exact h1
      exact emit_stack_signal_connected (Inv cid [w]) (Inv cid []) _ _ _ _ h2.2.1
        (fun u hu => remove_child_inv cid w u hu)
        (fun u hu => remove_child_inv cid w u (Inv_weaken cid [w] u hu)) h2
    · exact h

theorem set_visible_inv (cid : Nat) (w : Nat) (b : Bool) (s : GtkStackSidebarPrivate)
    (h : Inv cid [] s) : Inv cid [] (set_visible s w b) := by
  unfold set_visible
  simp only []
  apply emit_page_signal_inv (Inv cid []) _ _ _ _ _ (on_child_updated_inv cid [] w)
  have h1 := set_page_inv cid w (fun p => { p with visible := b }) (fun _ => rfl) s h
  generalize set_page s w (fun p => { p with visible := b }) = t at h1
  split
  · exact h1
  · split
    · split
      · exact Inv_frame cid [] _ _ (update_visible_child_frame _ _) h1
      · split
        · exact Inv_frame cid [] _ _ (update_visible_child_frame _ _) h1
        · exact h1
    · exact h1

theorem step_inv (cid : Nat) (e : Event) (he : e.on_attached_stack = true)
    (s : GtkStackSidebarPrivate) (h : Inv cid [] s) : Inv cid [] (step s e) := by
  cases e with
  | set_stack stack => simp [Event.on_attached_stack] at he
  | destroy => simp [Event.on_attached_stack] at he
  | page_added page => exact gtk_stack_add_inv cid page s h
  | page_removed w => exact gtk_stack_remove_inv cid w s h
  | title_changed w title =>
    exact emit_page_signal_inv (Inv cid []) _ _ _ _ _ (on_child_updated_inv cid [] w)
      (set_page_inv cid w (fun p => { p with title := title }) (fun _ => rfl) s h)
  | needs_attention_changed w b =>
    exact emit_page_signal_inv (Inv cid []) _ _ _ _ _ (on_child_updated_inv cid [] w)
      (set_page_inv cid w (fun p => { p with needs_attention := b }) (fun _ => rfl) s h)
  | visible_changed w b => exact set_visible_inv cid w b s h
  | position_changed w pos =>
    exact emit_page_signal_inv (Inv cid []) _ _ _ _ _ (on_position_updated_inv cid [])
      (set_page_inv cid w (fun p => { p with position := pos }) (fun _ => rfl) s h)
  | active_page_changed w =>
    show Inv cid [] (set_visible_child_external s w)
    unfold set_visible_child_external
    split
    · exact h
    · split
      · exact h
      · split
        · exact Inv_frame cid [] _ _ (update_visible_child_frame _ _) h
        · exact h
  | row_selected r =>
    exact Inv_frame cid [] _ _ (dispatch_frame _ _) h

theorem run_inv (cid : Nat) (events : List Event) :
    ∀ s : GtkStackSidebarPrivate, (∀ e ∈ events, e.on_attached_stack = true) → Inv cid [] s →
      Inv cid [] (run s events) := by
  induction events with
  | nil => intro s _ h; exact h
  | cons e es ih =>
    intro s he h
    exact ih (step s e) (fun x hx => he x (List.mem_cons_of_mem _ hx))
      (step_inv cid e (he e (List.mem_cons_self _ _)) s h)

theorem lookup_of_mem_nodup (t : List (Nat × Nat)) (hnd : (t.map Prod.fst).Nodup) (k v : Nat)
    (h : (k, v) ∈ t) : g_hash_table_lookup t k = some v := by
  induction t with
  | nil => simp at h
  | cons a t ih =>
    obtain ⟨k1, v1⟩ := a
    simp only [List.map_cons, List.nodup_cons] at hnd
    rcases List.mem_cons.mp h with h1 | h1
    · simp only [Prod.mk.injEq] at h1
      rw [h1.1, h1.2]
      exact lookup_cons_self _ _ _
    · have hne : k1 ≠ k := by
        intro e
        apply hnd.1
        rw [e]
        exact List.mem_map.mpr ⟨(k, v), h1, rfl⟩
      rw [lookup_cons_ne _ _ _ _ hne]
      exact ih hnd.2 h1

theorem PopInv.list_in_map {done : List Nat} {s : GtkStackSidebarPrivate} (h : PopInv done s) :
    ListInMap s := by
  obtain ⟨i1, _, i3, _, _⟩ := h
  intro r hr
  have hm : (r.stack_child, r.id) ∈ s.rows.map (fun e => ((some e.1 : Option Nat), e.2)) :=
    i3.mem_iff.mp (List.mem_map_of_mem (fun r => (r.stack_child, r.id)) hr)
  obtain ⟨e, he, hee⟩ := List.mem_map.mp hm
  simp only [Prod.mk.injEq] at hee
  refine ⟨e.1, ?_⟩
  rw [← hee.2]
  exact lookup_of_mem_nodup _ i1 _ _ he

theorem attach_inv (s1 : GtkStackSidebarPrivate) (D : GtkStack) (h1 : s1.rows = [])
    (h2 : s1.list.rows = []) :
    Inv D.id [] (connect_stack_signals (populate_stack_sidebar { s1 with stack := some D })) := by
  obtain ⟨hp, ha, st, hst, hid, hh⟩ := attach_spec s1 D h1 h2
  generalize connect_stack_signals (populate_stack_sidebar { s1 with stack := some D }) = t at *
  have hwid : widgets t = D.children.map (fun p => p.widget) := by
    have := widgets_of_page_attrs { s1 with stack := some D } t (by rw [ha]; rfl)
    rw [this]
    rfl
  refine ⟨?_, ?_, ?_, hp.list_in_map⟩
  · simp [gtk_stack_sidebar_get_stack, hst, hid]
  · simp [stack_handlers, hst, hh]
  · intro e he
    left
    rw [hwid]
    exact (hp.2.1 e.1).mp (List.mem_map_of_mem Prod.fst he)

theorem foldl_remove_child_list_in_map (ws : List Nat) :
    ∀ s : GtkStackSidebarPrivate, ListInMap s →
      ListInMap (ws.foldl (fun s w => remove_child w s) s) := by
  induction ws with
  | nil => intro s h; exact h
  | cons w ws ih => intro s h; exact ih _ (remove_child_list_in_map w s h)

theorem clear_after_disconnect (cid : Nat) (s : GtkStackSidebarPrivate) (h : Inv cid [] s) :
    (clear_stack_sidebar (disconnect_stack_signals s)).rows = [] ∧
    (clear_stack_sidebar (disconnect_stack_signals s)).list.rows = [] := by
  obtain ⟨i1, _, i3, i4⟩ := h
  cases hst : s.stack with
  | none => simp [gtk_stack_sidebar_get_stack, hst] at i1
  | some st =>
    have hd := disconnect_stack_signals_eq s st hst
    have hrows : (clear_stack_sidebar (disconnect_stack_signals s)).rows = [] := by
      rw [clear_stack_sidebar_rows (disconnect_stack_signals s) _ (by rw [hd]),
        (disconnect_stack_signals_frame s).1, List.filter_eq_nil_iff]
      intro e he
      rcases i3 e he with h1 | h1
      · simp only [widgets, hst, Option.map, Option.getD] at h1
        simpa using h1
      · exact absurd h1 (List.not_mem_nil _)
    have hl : ListInMap (clear_stack_sidebar (disconnect_stack_signals s)) := by
      unfold clear_stack_sidebar gtk_container_foreach
      rw [hd]
      simp only []
      apply foldl_remove_child_list_in_map
      exact i4
    refine ⟨hrows, ?_⟩
    cases hr : (clear_stack_sidebar (disconnect_stack_signals s)).list.rows with
    | nil => rfl
    | cons r rs =>
      obtain ⟨w, hw⟩ := hl r (by rw [hr]; exact List.mem_cons_self _ _)
      rw [hrows] at hw
      simp [g_hash_table_lookup] at hw

/-! ## Selection of a row and of a page -/

/-- C10: `sort_list` returns `-1`, `0` or `1` exactly as the position of the first
row is less than, equal to or greater than the position of the second, an
absent row having position `0`; it is antisymmetric and transitive, and sorting
the rows of the list with it gives ascending positions without losing or
duplicating a row. -/
theorem sort_list_orders_by_position (priv : GtkStackSidebarPrivate) (r1 r2 r3 : Option Row) :
    (sort_list priv r1 r2 = -1 ↔ pos priv r1 < pos priv r2) ∧
    (sort_list priv r1 r2 = 0 ↔ pos priv r1 = pos priv r2) ∧
    (sort_list priv r1 r2 = 1 ↔ pos priv r2 < pos priv r1) ∧
    pos priv none = 0 ∧
    sort_list priv r1 r2 = - sort_list priv r2 r1 ∧
    (sort_list priv r1 r2 ≤ 0 → sort_list priv r2 r3 ≤ 0 → sort_list priv r1 r3 ≤ 0) ∧
    ((gtk_list_box_invalidate_sort priv).list.rows.map (fun r => pos priv (some r))).Pairwise
      (fun a b => a ≤ b) ∧
    ((gtk_list_box_invalidate_sort priv).list.rows.map Row.core).Perm
      (priv.list.rows.map Row.core) := by
  rw [sort_list_eq priv r1 r2, sort_list_eq priv r2 r1, sort_list_eq priv r2 r3,
    sort_list_eq priv r1 r3]
  refine ⟨?_, ?_, ?_, rfl, ?_, ?_, ?_, ?_⟩
  · split_ifs <;> simp <;> omega
  · split_ifs <;> simp <;> omega
  · split_ifs <;> simp <;> omega
  · split_ifs <;> omega
  · split_ifs <;> simp <;> omega
  · have hs := (sort_rows_spec priv priv.list.rows [] List.Pairwise.nil).1
    have hm : (gtk_list_box_invalidate_sort priv).list.rows.map (fun r => pos priv (some r)) =
        (priv.list.rows.foldl (fun acc r => insert_sorted (sort_list priv) r acc) []).map
          (fun r => pos priv (some r)) :=
      map_core_eq_imp (update_headers_map_core _ none) _ (pos_core priv)
    rw [hm, List.pairwise_map]
    exact hs
  · have hp := (sort_rows_spec priv priv.list.rows [] List.Pairwise.nil).2
    have hm : (gtk_list_box_invalidate_sort priv).list.rows.map Row.core =
        (priv.list.rows.foldl (fun acc r => insert_sorted (sort_list priv) r acc) []).map Row.core :=
      update_headers_map_core _ none
    rw [hm]
    simpa using hp.map Row.core

/-- C1 as stated fails: after the title of a visible page is set to the empty
text, the page is visible, its title is not a non-empty text, and its row is
visible. -/
theorem empty_title_row_is_visible :
    (gtk_container_child_get ex_after_empty_title.stack (some 1)).map
        (fun p => (p.visible, p.title, title_non_empty p.title)) = some (true, some "", false) ∧
      ex_after_empty_title.list.rows.map (fun r => (r.stack_child, r.visible)) =
        [(some 1, true)] := by
  decide

/-- C1 amended: after `update_row` the row is visible if and only if the page is
visible and its title is present (not `NULL`); the same holds for the row of the
page after the change handler `on_child_updated`; a visible page whose title is
the empty text has a visible row. -/
theorem update_row_visible_iff_title_present (priv : GtkStackSidebarPrivate) (widget : Nat)
    (p : Page) (row : Row) (h : gtk_container_child_get priv.stack (some widget) = some p) :
    ((update_row priv widget row).visible = true ↔ (p.visible = true ∧ p.title ≠ none)) ∧
    (∀ r, g_hash_table_lookup priv.rows widget = some r →
      ∀ x ∈ (on_child_updated widget priv).list.rows, x.id = r →
        (x.visible = true ↔ (p.visible = true ∧ p.title ≠ none))) ∧
    (p.visible = true → p.title = some "" → (update_row priv widget row).visible = true) := by
  have hv : ∀ y : Row, (update_row priv widget y).visible = (p.visible && p.title.isSome) := by
    intro y
    unfold update_row
    rw [h]
    simp only []
    split <;> rfl
  have hiff : ∀ y : Row, ((update_row priv widget y).visible = true ↔
      (p.visible = true ∧ p.title ≠ none)) := by
    intro y
    rw [hv y]
    cases p.title <;> simp
  refine ⟨hiff row, ?_, ?_⟩
  · intro r hr x hx hxr
    unfold on_child_updated at hx
    rw [hr] at hx
    simp only [] at hx
    have hc : x.core ∈ (gtk_list_box_update_headers none
        (priv.list.rows.map (fun x => if x.id = r then update_row priv widget x else x))).map
          Row.core := List.mem_map_of_mem _ hx
    rw [update_headers_map_core] at hc
    obtain ⟨z, hz, hzx⟩ := List.mem_map.mp hc
    obtain ⟨y, _, hyz⟩ := List.mem_map.mp hz
    have hid : ∀ y : Row, (update_row priv widget y).id = y.id := by
      intro y
      unfold update_row
      rw [h]
      simp only []
      split <;> rfl
    have hzid : z.id = r := by
      have := congrArg Row.id hzx
      simp only [core_id] at this
      rw [this, hxr]
    have hyid : y.id = r := by
      by_cases hy : y.id = r
      · exact hy
      · rw [if_neg hy] at hyz
        rw [hyz]
        exact hzid
    rw [if_pos hyid] at hyz
    have hvis : x.visible = z.visible := by
      have := congrArg Row.visible hzx
      simp only [core_visible] at this
      exact this.symm
    rw [hvis, ← hyz]
    exact hiff y
  · intro h1 h2
    rw [hv row, h1, h2]
    rfl

/-- Witness of `update_row_visible_iff_title_present`: the page of `ex_stack_one`. -/
theorem update_row_visible_iff_title_present_witness :
    gtk_container_child_get ex_priv_one.stack (some 1) = some (ex_page 1 (some "a") true 0) ∧
    ((update_row ex_priv_one 1 (gtk_list_box_row_new 0)).visible = true ↔
      ((ex_page 1 (some "a") true 0).visible = true ∧ (ex_page 1 (some "a") true 0).title ≠ none)) :=
  ⟨by decide,
    (update_row_visible_iff_title_present ex_priv_one 1 (ex_page 1 (some "a") true 0)
      (gtk_list_box_row_new 0) (by decide)).1⟩

/-- C5, the code at the failing input: a visible page is added to an attached
empty stack and becomes its active page; the map has a row for it, and no row
is selected. -/
theorem added_active_page_not_selected :
    gtk_stack_get_visible_child ex_after_first_page.stack = some 1 ∧
    g_hash_table_lookup ex_after_first_page.rows 1 = some 0 ∧
    ex_after_first_page.list.rows.map (fun r => (r.id, r.stack_child)) = [(0, some 1)] ∧
    ex_after_first_page.list.selected_row = none ∧
    ex_after_first_page.in_child_changed = false := by
  decide

/-- C9, the code at the failing input: with two pages the second displayed row
carries the separator; after the first page is removed the remaining row is the
first displayed row and still carries it. -/
theorem first_row_keeps_separator :
    (displayed ex_attached_two.list.rows).map (fun r => (r.stack_child, r.header)) =
        [(some 1, false), (some 2, true)] ∧
    (displayed ex_after_first_removed.list.rows).map (fun r => (r.stack_child, r.header)) =
        [(some 2, true)] ∧
    update_header { gtk_list_box_row_new 0 with header := true } none =
      { gtk_list_box_row_new 0 with header := true } := by
  decide

/-- C8: after `update_row` (and for the row of the page after the change handler
`on_child_updated`) the row carries the needs-attention class if and only if
the page needs attention, whatever the visibility and the title of the page;
when only `needs-attention` of the page is set to `b` and the row is derived
again, the class is `b` and the visibility, the label and the identity of the
row are as before. -/
theorem update_row_attention_iff (priv : GtkStackSidebarPrivate) (widget : Nat) (p : Page)
    (row : Row) (b : Bool) (h : gtk_container_child_get priv.stack (some widget) = some p) :
    ((update_row priv widget row).needs_attention = true ↔ p.needs_attention = true) ∧
    (∀ r, g_hash_table_lookup priv.rows widget = some r →
      ∀ x ∈ (on_child_updated widget priv).list.rows, x.id = r →
        (x.needs_attention = true ↔ p.needs_attention = true)) ∧
    (update_row (set_page priv widget (fun q => { q with needs_attention := b })) widget
        (update_row priv widget row)).needs_attention = b ∧
    (update_row (set_page priv widget (fun q => { q with needs_attention := b })) widget
        (update_row priv widget row)).visible = (update_row priv widget row).visible ∧
    (update_row (set_page priv widget (fun q => { q with needs_attention := b })) widget
        (update_row priv widget row)).label = (update_row priv widget row).label ∧
    (update_row (set_page priv widget (fun q => { q with needs_attention := b })) widget
        (update_row priv widget row)).id = row.id := by
  have hw : p.widget = widget := child_get_widget _ _ _ h
  have h2 : gtk_container_child_get
      (set_page priv widget (fun q => { q with needs_attention := b })).stack (some widget) =
      some { p with needs_attention := b } := by
    rw [child_get_set_page priv widget (fun q => { q with needs_attention := b })
      (fun _ => rfl) widget, h]
    simp [hw]
  have ha : ∀ y : Row, ((update_row priv widget y).needs_attention = true ↔
      p.needs_attention = true) := by
    intro y
    unfold update_row
    rw [h]
    simp only []
    split <;> simp_all
  refine ⟨ha row, ?_, ?_, ?_, ?_, ?_⟩
  · intro r hr x hx hxr
    obtain ⟨y, _, _, hxy⟩ := on_child_updated_rows priv widget r hr x hx hxr
    have h3 : x.core.needs_attention = (update_row priv widget y).core.needs_attention :=
      congrArg Row.needs_attention hxy
    have h4 : x.needs_attention = (update_row priv widget y).needs_attention := h3
    rw [h4]
    exact ha y
  · unfold update_row
    rw [h2, h]
    cases b <;> simp
  · unfold update_row
    rw [h2, h]
    simp only []
    split <;> split <;> rfl
  · unfold update_row
    rw [h2, h]
    simp only []
    split <;> split <;> rfl
  · rw [update_row_id, update_row_id]

/-- Witness of `update_row_attention_iff`: the page of `ex_stack_one`. -/
theorem update_row_attention_iff_witness :
    gtk_container_child_get ex_priv_one.stack (some 1) = some (ex_page 1 (some "a") true 0) ∧
    ((update_row ex_priv_one 1 (gtk_list_box_row_new 0)).needs_attention = true ↔
      (ex_page 1 (some "a") true 0).needs_attention = true) :=
  ⟨by decide,
    (update_row_attention_iff ex_priv_one 1 (ex_page 1 (some "a") true 0)
      (gtk_list_box_row_new 0) true (by decide)).1⟩

/-- C2 as stated fails: attached to a stack whose only page has no title, the
sidebar has a map entry and a list row (an invisible one) for that page, while
the stack has no page with a non-empty title. -/
theorem untitled_page_has_row :
    ex_attached_untitled.rows = [(1, 0)] ∧
    ex_attached_untitled.list.rows.map (fun r => (r.id, r.stack_child, r.visible)) =
      [(0, some 1, false)] ∧
    ex_stack_untitled.children.filter (fun p => title_non_empty p.title) = [] := by
  decide

/-- C2 amended: let the sidebar be unattached (no stack, empty map and list) and
`C` a stack whose pages are distinct widgets at pairwise distinct positions.
After `gtk_stack_sidebar_set_stack` with `C` the map has exactly one entry for
every page of `C`, whatever its title; the rows of the list are exactly the
rows of the map entries; the list is in strictly ascending page position; and
the row of a page is visible if and only if the page is visible and has a
title, and carries the label and the needs-attention class of the page. -/
theorem attach_gives_row_per_page (s0 : GtkStackSidebarPrivate) (C : GtkStack)
    (h0 : s0.stack = none) (h1 : s0.rows = []) (h2 : s0.list.rows = [])
    (hw : (C.children.map (fun p => p.widget)).Nodup)
    (hp : (C.children.map (fun p => p.position)).Nodup) :
    ((gtk_stack_sidebar_set_stack s0 (some C)).rows.map Prod.fst).Perm
      (C.children.map (fun p => p.widget)) ∧
    ((gtk_stack_sidebar_set_stack s0 (some C)).list.rows.map
        (fun r => (r.stack_child, r.id))).Perm
      ((gtk_stack_sidebar_set_stack s0 (some C)).rows.map (fun e => (some e.1, e.2))) ∧
    ((gtk_stack_sidebar_set_stack s0 (some C)).list.rows.map
        (fun r => pos (gtk_stack_sidebar_set_stack s0 (some C)) (some r))).Pairwise
      (fun a b => a < b) ∧
    (∀ r ∈ (gtk_stack_sidebar_set_stack s0 (some C)).list.rows, ∀ p ∈ C.children,
      r.stack_child = some p.widget →
        pos (gtk_stack_sidebar_set_stack s0 (some C)) (some r) = p.position ∧
        (r.visible = true ↔ (p.visible = true ∧ p.title ≠ none)) ∧
        r.label = p.title.getD "" ∧ r.needs_attention = p.needs_attention) := by
  have hat : gtk_stack_sidebar_set_stack s0 (some C) = connect_stack_signals
      (populate_stack_sidebar { s0 with stack := some C }) := by
    simp [gtk_stack_sidebar_set_stack, h0]
  obtain ⟨⟨i1, i2, i3, i4, i5⟩, ha, _⟩ := attach_spec s0 C h1 h2
  rw [← hat] at i1 i2 i3 i4 i5 ha
  generalize gtk_stack_sidebar_set_stack s0 (some C) = s at *
  have hkeys : (s.rows.map Prod.fst).Perm (C.children.map (fun p => p.widget)) :=
    (List.perm_ext_iff_of_nodup i1 hw).mpr i2
  have hpos : ∀ p ∈ C.children, ∀ r : Row, r.stack_child = some p.widget →
      pos s (some r) = p.position := by
    intro p hpm r hr
    obtain ⟨q, hq, hqa⟩ := child_get_of_mem s C ha hw p hpm
    rw [pos_of_child s r p.widget q hr hq]
    exact (attrs_eq_fields hqa).2.2.2.2
  refine ⟨hkeys, i3, ?_, ?_⟩
  · have hnd : (s.list.rows.map (fun r => pos s (some r))).Nodup := by
      have e1 : s.list.rows.map (fun r => pos s (some r)) =
          (s.list.rows.map (fun r => (r.stack_child, r.id))).map
            (fun x => pos s (some { gtk_list_box_row_new 0 with stack_child := x.1 })) := by
        rw [List.map_map]
        rfl
      have e2 : (s.rows.map (fun e => ((some e.1 : Option Nat), e.2))).map
            (fun x => pos s (some { gtk_list_box_row_new 0 with stack_child := x.1 })) =
          (s.rows.map Prod.fst).map
            (fun w => pos s (some { gtk_list_box_row_new 0 with stack_child := some w })) := by
        rw [List.map_map, List.map_map]
        rfl
      have e3 : (C.children.map (fun p => p.widget)).map
            (fun w => pos s (some { gtk_list_box_row_new 0 with stack_child := some w })) =
          C.children.map (fun p => p.position) := by
        rw [List.map_map]
        apply List.map_congr_left
        intro p hpm
        exact hpos p hpm _ rfl
      have hperm := (i3.map
        (fun x => pos s (some { gtk_list_box_row_new 0 with stack_child := x.1 })))
      rw [← e1, e2] at hperm
      have hperm2 := hperm.trans (hkeys.map
        (fun w => pos s (some { gtk_list_box_row_new 0 with stack_child := some w })))
      rw [e3] at hperm2
      exact hperm2.nodup_iff.mpr hp
    exact (i4.and hnd).imp (fun h => lt_of_le_of_ne h.1 h.2)
  · intro r hr p hpm hsc
    obtain ⟨q, hq, hqa⟩ := child_get_of_mem s C ha hw p hpm
    obtain ⟨w, hw1, hcore⟩ := i5 r hr
    have hwp : w = p.widget := by
      rw [hw1] at hsc
      exact Option.some.inj hsc
    subst hwp
    obtain ⟨u1, u2, u3⟩ := update_row_fields s p.widget q (gtk_list_box_row_new r.id) hq
    have hqv : q.visible = p.visible := (attrs_eq_fields hqa).2.2.2.1
    have hqt : q.title = p.title := (attrs_eq_fields hqa).2.1
    have hqn : q.needs_attention = p.needs_attention := (attrs_eq_fields hqa).2.2.1
    have hv : r.visible = (update_row s p.widget (gtk_list_box_row_new r.id)).visible :=
      (core_eq_fields hcore).2.2.2.1
    have hl : r.label = (update_row s p.widget (gtk_list_box_row_new r.id)).label :=
      (core_eq_fields hcore).2.2.1
    have hn : r.needs_attention =
        (update_row s p.widget (gtk_list_box_row_new r.id)).needs_attention :=
      (core_eq_fields hcore).2.2.2.2.1
    refine ⟨hpos p hpm r hsc, ?_, ?_, ?_⟩
    · rw [hv, u1, hqv, hqt]
      cases p.title <;> simp
    · rw [hl, u2, hqt]
    · rw [hn, u3, hqn]

/-- Witness of `attach_gives_row_per_page`: a new sidebar and the stack
`ex_stack_two`. -/
theorem attach_gives_row_per_page_witness :
    (gtk_stack_sidebar_init.stack = none ∧ gtk_stack_sidebar_init.rows = [] ∧
      gtk_stack_sidebar_init.list.rows = [] ∧
      (ex_stack_two.children.map (fun p => p.widget)).Nodup ∧
      (ex_stack_two.children.map (fun p => p.position)).Nodup) ∧
    ((gtk_stack_sidebar_set_stack gtk_stack_sidebar_init (some ex_stack_two)).rows.map
      Prod.fst).Perm (ex_stack_two.children.map (fun p => p.widget)) :=
  ⟨by decide,
    (attach_gives_row_per_page gtk_stack_sidebar_init ex_stack_two rfl rfl rfl (by decide)
      (by decide)).1⟩

/-- C3: an unattached sidebar (no stack, empty map and list) is attached to `C`;
any sequence of events on `C`, its pages and the list follows (pages added and
removed, title, needs-attention, visibility and position changed, active page
changed, row selected); then the sidebar is attached to another stack `D`.
Afterwards the attached stack is `D`, the map has exactly one entry for every
page of `D` and no other entry, the rows of the list are exactly the rows of the
map entries, and so neither the map nor the list holds a row for a page that is
not a page of `D`. -/
theorem reattach_migrates_rows (s0 : GtkStackSidebarPrivate) (C D : GtkStack)
    (events : List Event) (h0 : s0.stack = none) (h1 : s0.rows = []) (h2 : s0.list.rows = [])
    (hne : C.id ≠ D.id) (hev : ∀ e ∈ events, e.on_attached_stack = true) :
    gtk_stack_sidebar_get_stack (reattached s0 C events D) = some D.id ∧
    ((reattached s0 C events D).rows.map Prod.fst).Nodup ∧
    (∀ w, w ∈ (reattached s0 C events D).rows.map Prod.fst ↔
      w ∈ D.children.map (fun p => p.widget)) ∧
    ((reattached s0 C events D).list.rows.map (fun r => (r.stack_child, r.id))).Perm
      ((reattached s0 C events D).rows.map (fun e => (some e.1, e.2))) ∧
    (∀ w, w ∉ D.children.map (fun p => p.widget) →
      w ∉ (reattached s0 C events D).rows.map Prod.fst ∧
      ∀ r ∈ (reattached s0 C events D).list.rows, r.stack_child ≠ some w) := by
  have hat : gtk_stack_sidebar_set_stack s0 (some C) = connect_stack_signals
      (populate_stack_sidebar { s0 with stack := some C }) := by
    simp [gtk_stack_sidebar_set_stack, h0]
  have hI0 : Inv C.id [] (gtk_stack_sidebar_set_stack s0 (some C)) := by
    rw [hat]
    exact attach_inv s0 C h1 h2
  have hI := run_inv C.id events (gtk_stack_sidebar_set_stack s0 (some C)) hev hI0
  unfold reattached
  generalize run (gtk_stack_sidebar_set_stack s0 (some C)) events = s at hI
  obtain ⟨c1, c2⟩ := clear_after_disconnect C.id s hI
  have hid := hI.1
  cases hst : s.stack with
  | none => simp [gtk_stack_sidebar_get_stack, hst] at hid
  | some st =>
    have hstid : st.id = C.id := by
      simpa [gtk_stack_sidebar_get_stack, hst] using hid
    have hset : gtk_stack_sidebar_set_stack s (some D) =
        connect_stack_signals (populate_stack_sidebar
          { ({ clear_stack_sidebar (disconnect_stack_signals s) with stack := none } :
              GtkStackSidebarPrivate) with stack := some D }) := by
      unfold gtk_stack_sidebar_set_stack
      rw [hst]
      have hc : ¬ (Option.map (fun st => st.id) (some st) = Option.map (fun st => st.id) (some D)) := by
        simp only [Option.map, Option.some.injEq]
        rw [hstid]
        exact hne
      rw [if_neg hc]
    rw [hset]
    obtain ⟨⟨i1, i2, i3, _, _⟩, _, st2, hst2, hid2, _⟩ :=
      attach_spec { clear_stack_sidebar (disconnect_stack_signals s) with stack := none } D c1 c2
    generalize connect_stack_signals (populate_stack_sidebar
      { ({ clear_stack_sidebar (disconnect_stack_signals s) with stack := none } :
          GtkStackSidebarPrivate) with stack := some D }) = t at *
    refine ⟨?_, i1, i2, i3, ?_⟩
    · simp [gtk_stack_sidebar_get_stack, hst2, hid2]
    · intro w hw
      refine ⟨fun hk => hw ((i2 w).mp hk), ?_⟩
      intro r hr hsc
      have hm : (r.stack_child, r.id) ∈ t.rows.map (fun e => ((some e.1 : Option Nat), e.2)) :=
        i3.mem_iff.mp (List.mem_map_of_mem (fun r => (r.stack_child, r.id)) hr)
      obtain ⟨e, he, hee⟩ := List.mem_map.mp hm
      simp only [Prod.mk.injEq] at hee
      rw [hsc] at hee
      have : e.1 = w := Option.some.inj hee.1
      apply hw
      rw [← this]
      exact (i2 e.1).mp (List.mem_map_of_mem Prod.fst he)

/-- Witness of `reattach_migrates_rows`: a new sidebar is attached to `ex_stack_two`,
the first page is removed and a title changed, then the sidebar is attached to
`ex_stack_other`. -/
theorem reattach_migrates_rows_witness :
    (gtk_stack_sidebar_init.stack = none ∧ gtk_stack_sidebar_init.rows = [] ∧
      gtk_stack_sidebar_init.list.rows = [] ∧ ex_stack_two.id ≠ ex_stack_other.id ∧
      ∀ e ∈ [Event.page_removed 1, Event.title_changed 2 none], e.on_attached_stack = true) ∧
    gtk_stack_sidebar_get_stack
      (reattached gtk_stack_sidebar_init ex_stack_two
        [Event.page_removed 1, Event.title_changed 2 none] ex_stack_other) =
      some ex_stack_other.id :=
  ⟨by decide,
    (reattach_migrates_rows gtk_stack_sidebar_init ex_stack_two ex_stack_other
      [Event.page_removed 1, Event.title_changed 2 none] rfl rfl rfl (by decide)
      (by decide)).1⟩

/-- C6, the code at the failing input: after the destruction of the attached
stack the sidebar still returns the stack from `gtk_stack_sidebar_get_stack`, and
the map and the list still hold the row of its page, where the sidebar should
be unattached; a detach of the same sidebar, by `gtk_stack_sidebar_set_stack`, gives
no stack and an empty map. -/
theorem destroy_keeps_stack_and_rows :
    gtk_stack_sidebar_get_stack ex_after_destroy = some 100 ∧
    ex_after_destroy.rows = [(1, 0)] ∧
    ex_after_destroy.list.rows.map (fun r => (r.id, r.stack_child)) = [(0, some 1)] ∧
    gtk_stack_sidebar_get_stack
      (gtk_stack_sidebar_set_stack (gtk_stack_sidebar_set_stack gtk_stack_sidebar_init
        (some ex_stack_one)) none) = none ∧
    (gtk_stack_sidebar_set_stack (gtk_stack_sidebar_set_stack gtk_stack_sidebar_init
        (some ex_stack_one)) none).rows = [] := by
  decide

/-- C7, the code at the failing input: a detach after the destruction of the
attached stack leaves the sidebar without stack, but the map still has the entry
and the list the row of the destroyed page, where the map should be empty after
a detach. -/
theorem detach_after_destroy_keeps_entry :
    ex_after_destroy_detach = gtk_stack_sidebar_set_stack ex_after_destroy none ∧
    ex_after_destroy_detach.stack = none ∧
    ex_after_destroy_detach.rows = [(1, 0)] ∧
    ex_after_destroy_detach.list.rows.map (fun r => (r.id, r.stack_child)) = [(0, some 1)] := by
  decide

end GmSidebar
